import Mathlib

/-!
Verification development for the `ach-file` library: a shallow embedding of
its field/record encoding engine (`ach/record_types/record_fields.py`,
`record_type_base.py`, the six concrete record schemas), the aggregate tree
with cached control records (`ach/files/file_structure.py`), and the flat-file
round-trip pipeline (`ach/files/file_parser.py`), together with theorems about
the stated properties of that code.

Python strings are modelled as `List Char`; Python's unbounded non-negative
ints as `Nat`; fallible construction as `Except`.  The system-clock and
ISO-date-reformatting helpers used by the date/time auto-correction rules
(`datetime.date.today()`, `fromisoformat`) are abstracted into an `Env`
record of arbitrary total functions, universally quantified in the theorems.
-/

set_option maxRecDepth 8192

namespace AchFile

/-- Python strings are modelled as lists of characters. -/
abbrev Str := List Char

/-- Model of Python `str.split('\n')`: splits on every newline, keeping empty
pieces (`''.split('\n') == ['']`). -/
def splitNl : Str → List Str
  | [] => [[]]
  | c :: rest =>
    match splitNl rest with
    | [] => [[]]
    | first :: others =>
      if c = '\n' then [] :: first :: others else (c :: first) :: others

/-- Model of Python `sep.join(pieces)`. -/
def joinWith (sep : Str) : List Str → Str
  | [] => []
  | [x] => x
  | x :: y :: rest => x ++ sep ++ joinWith sep (y :: rest)

/-- ASCII decimal digit (Python's `\d` on the ASCII inputs this format uses). -/
def isPyDigit (c : Char) : Bool := '0' ≤ c && c ≤ '9'

/-- Python's `\s` whitespace class (ASCII part), also used by `str.strip`. -/
def isPySpace (c : Char) : Bool :=
  c = ' ' || c = '\t' || c = '\n' || c = '\r' || c = '\x0b' || c = '\x0c'

/-- Decimal digit characters, as produced by Python `str(int)`. -/
def digitChar : Nat → Char
  | 0 => '0' | 1 => '1' | 2 => '2' | 3 => '3' | 4 => '4'
  | 5 => '5' | 6 => '6' | 7 => '7' | 8 => '8' | _ => '9'

/-- Fuel-driven digit extraction (the fuel only bounds the recursion
depth; any fuel at least the value itself yields all digits). -/
def natDigitsRevAux : Nat → Nat → List Char
  | _, 0 => []
  | n, fuel + 1 =>
    if n = 0 then [] else digitChar (n % 10) :: natDigitsRevAux (n / 10) fuel

/-- Decimal digits of `n`, least significant first (empty for 0). -/
def natDigitsRev (n : Nat) : List Char := natDigitsRevAux n n

/-- Model of Python `str(n)` for a non-negative int: decimal, no sign, no
leading zeros. -/
def natToStr (n : Nat) : Str :=
  if n = 0 then ['0'] else (natDigitsRev n).reverse

def digitVal (c : Char) : Nat := c.toNat - 48

/-- Accumulate decimal digits into a number. -/
def parseDigits (s : Str) : Nat := s.foldl (fun a c => a * 10 + digitVal c) 0

/-- Model of Python `str.strip()`. -/
def stripWs (s : Str) : Str :=
  ((s.dropWhile isPySpace).reverse.dropWhile isPySpace).reverse

/-- Model of Python `int(s)` on the strings it is applied to in this code
base: decimal digits with optional surrounding whitespace. -/
def pyIntNat (s : Str) : Nat := parseDigits (stripWs s)

/-! ## Field types (`record_fields.py`) -/

/-- `Alignment` enum: whether a field type is aligned left or right. -/
inductive Alignment
  | LEFT | RIGHT
deriving DecidableEq, Repr

/-- `Alignment.align`: `str.ljust` / `str.rjust` with the given padding. -/
def Alignment.align : Alignment → Str → Nat → Char → Str
  | .LEFT, s, n, pad => s ++ List.replicate (n - s.length) pad
  | .RIGHT, s, n, pad => List.replicate (n - s.length) pad ++ s

/-- `Alignment.truncate`: `s[:length]` when left aligned, `s[-length:]` when
right aligned (Python's `s[-0:]` is the whole string, hence the 0 case). -/
def Alignment.truncate : Alignment → Str → Nat → Str
  | .LEFT, s, n => s.take n
  | .RIGHT, s, n => if n = 0 then s else s.drop (s.length - n)

/-- The five concrete `FieldType` subclasses. -/
inductive FieldTypeTag
  | integer | alphaNum | blankPaddedRoutingNumber | date | time
deriving DecidableEq, Repr

/-- `padding` class attribute of each field type. -/
def paddingOf : FieldTypeTag → Char
  | .integer => '0'
  | .alphaNum => ' '
  | .blankPaddedRoutingNumber => ' '
  | .date => ' '
  | .time => ' '

/-- `alignment` class attribute (`BlankPaddedRoutingNumberFieldType` inherits
RIGHT from `IntegerFieldType`; date/time inherit LEFT from
`AlphaNumFieldType`). -/
def alignmentOf : FieldTypeTag → Alignment
  | .integer => .RIGHT
  | .alphaNum => .LEFT
  | .blankPaddedRoutingNumber => .RIGHT
  | .date => .LEFT
  | .time => .LEFT

/-- `auto_correct` class attribute. -/
def autoCorrectDefault : FieldTypeTag → Bool
  | .integer => false
  | .alphaNum => true
  | .blankPaddedRoutingNumber => true
  | .date => true
  | .time => true

/-- `FieldType.apply_fixed_length`: align (pad) then truncate. -/
def applyFixedLength (t : FieldTypeTag) (s : Str) (len : Nat) : Str :=
  (alignmentOf t).truncate ((alignmentOf t).align s len (paddingOf t)) len

/-- The character class `[A-Za-z0-9./()&'\s-]` of `AlphaNumFieldType`. -/
def isAlphaNumAllowed (c : Char) : Bool :=
  ('A' ≤ c && c ≤ 'Z') || ('a' ≤ c && c ≤ 'z') || isPyDigit c ||
  c = '.' || c = '/' || c = '(' || c = ')' || c = '&' || c = Char.ofNat 39 ||
  c = '-' || isPySpace c

/-- Full match of a string against the body of each type's anchored pattern. -/
def coreRegexMatch : FieldTypeTag → Str → Bool
  | .integer, s => !s.isEmpty && s.all isPyDigit
  | .alphaNum, s => !s.isEmpty && s.all isAlphaNumAllowed
  | .blankPaddedRoutingNumber, s =>
      (s.length = 9 && s.all isPyDigit) ||
      (s.length = 10 && (s.head?.elim false isPySpace) && (s.drop 1).all isPyDigit)
  | .date, s => s.length = 6 && s.all isPyDigit
  | .time, s => s.length = 4 && s.all isPyDigit

/-- Whether `re.match(cls.regex, s)` succeeds: the patterns are anchored with
`^...$`, and in Python `$` also matches just before one trailing newline. -/
def pyRegexMatch (t : FieldTypeTag) (s : Str) : Bool :=
  coreRegexMatch t s || (s.getLast? = some '\n' && coreRegexMatch t s.dropLast)

def isLeapYear (y : Nat) : Bool := y % 4 = 0 && (y % 100 ≠ 0 || y % 400 = 0)

def daysInMonth (y m : Nat) : Nat :=
  if m = 2 then (if isLeapYear y then 29 else 28)
  else if m = 4 || m = 6 || m = 9 || m = 11 then 30
  else 31

/-- Whether `datetime.date(y, m, d)` succeeds. -/
def isValidDate (y m d : Nat) : Bool :=
  1 ≤ m && m ≤ 12 && 1 ≤ d && d ≤ daysInMonth y m

/-- Whether `datetime.time(h, mi)` succeeds. -/
def isValidTime (h mi : Nat) : Bool := h ≤ 23 && mi ≤ 59

/-- `do_validation`, returning `true` when no exception is raised.
For the plain regex types, `is_match` compares the input against
`getattr(re.match(...), 'string', '')`, so a failed match still "passes"
when the input is the empty string.  `DateFieldType`/`TimeFieldType` return
early on blank input and additionally check the decoded calendar value. -/
def doValidation : FieldTypeTag → Str → Bool
  | .date, s =>
      if s.all isPySpace then true
      else pyRegexMatch .date s &&
        isValidDate (2000 + pyIntNat (s.take 2)) (pyIntNat ((s.drop 2).take 2))
          (pyIntNat ((s.drop 4).take 2))
  | .time, s =>
      if s.all isPySpace then true
      else pyRegexMatch .time s &&
        isValidTime (pyIntNat (s.take 2)) (pyIntNat (s.drop 2))
  | t, s => pyRegexMatch t s || s.isEmpty

/-- Environment abstracting the system clock and the CPython ISO-format
helpers used by date/time auto-correction (`datetime.date.today()`,
`datetime.datetime.fromisoformat(...).strftime(...)`): arbitrary total
functions, universally quantified in all theorems. -/
structure Env where
  nowDate : Str := []
  tomorrowDate : Str := []
  nowTime : Str := []
  tomorrowTime : Str := []
  datetimeIsoToDate : Str → Option Str := fun _ => none
  dateIsoToDate : Str → Option Str := fun _ => none
  datetimeIsoToTime : Str → Option Str := fun _ => none
  dateIsoToTime : Str → Option Str := fun _ => none

def pyUpper (s : Str) : Str := s.map Char.toUpper

/-- `should_correct_input`: the per-field override wins over the class
default. -/
def shouldCorrectInput (t : FieldTypeTag) (override : Option Bool) : Bool :=
  override.getD (autoCorrectDefault t)

/-- Body of `DateFieldType.correct_input` past its early return: sentinel
keywords, then the two ISO parses, then the input unchanged. -/
def dateCorrectInput (env : Env) (s : Str) : Str :=
  if pyUpper s = "NOW".toList then env.nowDate
  else if pyUpper s = "TOMORROW".toList then env.tomorrowDate
  else match env.datetimeIsoToDate s with
    | some r => r
    | none => match env.dateIsoToDate s with
      | some r => r
      | none => s

/-- Body of `TimeFieldType.correct_input` past its early return. -/
def timeCorrectInput (env : Env) (s : Str) : Str :=
  if pyUpper s = "NOW".toList then env.nowTime
  else if pyUpper s = "TOMORROW".toList then env.tomorrowTime
  else match env.datetimeIsoToTime s with
    | some r => r
    | none => match env.dateIsoToTime s with
      | some r => r
      | none => s

/-- `correct_input` of each field type (the base class and
`IntegerFieldType` leave the input unchanged). -/
def correctInput (env : Env) (t : FieldTypeTag) (override : Option Bool) (s : Str) : Str :=
  match t with
  | .integer => s
  | .alphaNum =>
      if !shouldCorrectInput t override then s else s.filter isAlphaNumAllowed
  | .blankPaddedRoutingNumber =>
      if !shouldCorrectInput t override then s
      else if s.isEmpty then []
      else if doValidation t s then s
      else if !(s.dropWhile isPySpace).isEmpty && (s.dropWhile isPySpace).all isPyDigit then
        Alignment.RIGHT.align s 9 '0'
      else s
  | .date =>
      if !shouldCorrectInput t override || doValidation t s then s
      else dateCorrectInput env s
  | .time =>
      if !shouldCorrectInput t override || doValidation t s then s
      else timeCorrectInput env s

/-! ## Field definitions and fields -/

/-- `FieldDefinition` (the `default` is already `str(...)`-converted, as in
`__init__`). -/
structure FieldDefinition where
  key : String
  fieldName : String
  fieldType : FieldTypeTag
  length : Nat
  required : Bool := true
  default : Option Str := none
  autoCorrectInput : Option Bool := none
deriving DecidableEq, Repr

inductive FieldErr
  | emptyRequiredField (fieldName : String)
  | valueMismatch (value : Str)
deriving DecidableEq, Repr

def exceptOk? {ε α : Type} : Except ε α → Option α
  | .ok a => some a
  | .error _ => none

/-- Value/default resolution of `_create_cleaned_value`:
`str(field_definition.default or '') if value is None else str(value)`. -/
def resolveRawValue (d : FieldDefinition) (value : Option Str) : Str :=
  match value with
  | some v => v
  | none =>
    match d.default with
    | some dv => dv
    | none => []

/-- The resolved raw value after `field_definition.correct_input`. -/
def correctedValue (env : Env) (d : FieldDefinition) (value : Option Str) : Str :=
  correctInput env d.fieldType d.autoCorrectInput (resolveRawValue d value)

/-- `Field._create_cleaned_value` preceded by
`Field._validate_required_value_not_empty`: presence check, value/default
resolution, correction, validation, fixed-width rendering. -/
def createCleanedValue (env : Env) (d : FieldDefinition) (value : Option Str) :
    Except FieldErr Str :=
  if value.isNone && d.required && d.default.isNone then
    .error (.emptyRequiredField d.fieldName)
  else if doValidation d.fieldType (correctedValue env d value) then
    .ok (applyFixedLength d.fieldType (correctedValue env d value) d.length)
  else .error (.valueMismatch (correctedValue env d value))

/-! ## Records (`record_type_base.py`) -/

inductive RecordErr
  | invalidRecordSize (className : String) (size : Nat)
  | invalidParameters (className : String) (keys : List String)
  | aggregateFieldCreation (className : String) (failedKeys : List String)
      (errors : List FieldErr)
  | indexError
  | keyError
  | noneTypeError
  | unknownRecordTypeCode
deriving DecidableEq, Repr

/-- A constructed record: its field keys mapped to cleaned `Field` values, in
schema order (Python dicts preserve insertion order). -/
structure RecordType where
  fields : List (String × Str)
deriving DecidableEq, Repr

/-- `RecordType.get_field_value`. -/
def getFieldValue (r : RecordType) (key : String) : Str :=
  (r.fields.lookup key).getD []

/-- `RecordType.render_record_line`: concatenation of all field values in
schema order. -/
def renderRecordLine (r : RecordType) : Str :=
  (r.fields.map Prod.snd).flatten

def RECORD_SIZE : Nat := 94
def FILE_HEADER_BLOCKING_FACTOR : Nat := 10

/-- `_validate_field_definition_list`'s computed size: the sum of the
schema's field widths. -/
def recordSizeOf (schema : List FieldDefinition) : Nat :=
  (schema.map (·.length)).sum

/-- `_validate_no_unknown_key_arguments`: supplied keys absent from the
schema. -/
def invalidKwargKeys (schema : List FieldDefinition)
    (kwargs : List (String × Str)) : List String :=
  (kwargs.map Prod.fst).filter fun k => !(schema.map (·.key)).contains k

/-- `_generate_fields_dict`'s per-key outcomes: each schema key paired with
the result of building its `Field` from `kwargs.get(key)`. -/
def fieldResults (env : Env) (schema : List FieldDefinition)
    (kwargs : List (String × Str)) : List (String × Except FieldErr Str) :=
  schema.map fun d => (d.key, createCleanedValue env d (kwargs.lookup d.key))

/-- The keys whose `Field` creation failed. -/
def failedFieldKeys (env : Env) (schema : List FieldDefinition)
    (kwargs : List (String × Str)) : List String :=
  ((fieldResults env schema kwargs).filter fun p => (exceptOk? p.2).isNone).map (·.1)

/-- `RecordType.__init__`: record-size check, unknown-kwargs check, then
field generation collecting every per-field failure into one aggregate
error. -/
def mkRecord (env : Env) (className : String) (schema : List FieldDefinition)
    (kwargs : List (String × Str)) : Except RecordErr RecordType :=
  if recordSizeOf schema ≠ RECORD_SIZE then
    .error (.invalidRecordSize className (recordSizeOf schema))
  else if !(invalidKwargKeys schema kwargs).isEmpty then
    .error (.invalidParameters className (invalidKwargKeys schema kwargs))
  else if !(failedFieldKeys env schema kwargs).isEmpty then
    .error (.aggregateFieldCreation className (failedFieldKeys env schema kwargs)
      ((fieldResults env schema kwargs).filterMap fun p =>
        match p.2 with
        | .error e => some e
        | .ok _ => none))
  else
    .ok ⟨(fieldResults env schema kwargs).filterMap
      fun p => (exceptOk? p.2).map fun v => (p.1, v)⟩

/-! ## The six concrete record schemas

Field definitions transcribed from `file_header.py`, `batch_header.py`,
`entry_detail.py`, `addenda.py`, `batch_control.py`, `file_control.py`.
Defaults appear `str(...)`-converted, exactly as `FieldDefinition.__init__`
stores them (e.g. `BATCH_DEFAULT_SERVICE_CLASS_CODE` stringifies to "200",
`AutoDateInput.NOW` to "NOW"). -/

def fileHeaderFieldDefs : List FieldDefinition := [
  { key := "record_type_code", fieldName := "Record Type Code",
    fieldType := .integer, length := 1, default := some "1".toList },
  { key := "priority_code", fieldName := "Priority Code",
    fieldType := .integer, length := 2, default := some "1".toList },
  { key := "destination_routing", fieldName := "Immediate Destination Routing",
    fieldType := .blankPaddedRoutingNumber, length := 10,
    autoCorrectInput := some true },
  { key := "company_identification", fieldName := "Company Identification Number",
    fieldType := .integer, length := 10 },
  { key := "file_creation_date", fieldName := "File Creation Date",
    fieldType := .date, length := 6, autoCorrectInput := some true,
    default := some "NOW".toList },
  { key := "file_creation_time", fieldName := "File Creation Time",
    fieldType := .time, length := 4, required := false },
  { key := "file_id_modifier", fieldName := "File ID Modifier",
    fieldType := .alphaNum, length := 1, default := some "A".toList },
  { key := "record size", fieldName := "Record Size",
    fieldType := .integer, length := 3, default := some "94".toList },
  { key := "blocking_factor", fieldName := "Blocking Factor",
    fieldType := .integer, length := 2, default := some "10".toList },
  { key := "format_code", fieldName := "Format Code",
    fieldType := .integer, length := 1, default := some "1".toList },
  { key := "destination_name", fieldName := "Destination Financial Institution Name",
    fieldType := .alphaNum, length := 23 },
  { key := "origin_name", fieldName := "Origin Financial Institution Name",
    fieldType := .alphaNum, length := 23 },
  { key := "reference_code", fieldName := "Reference Code Or Empty String",
    fieldType := .alphaNum, length := 8, default := some [] }]

def batchHeaderFieldDefs : List FieldDefinition := [
  { key := "record_type_code", fieldName := "Record Type Code",
    fieldType := .integer, length := 1, default := some "5".toList },
  { key := "service_class_code", fieldName := "Service Class Code",
    fieldType := .integer, length := 3, default := some "200".toList },
  { key := "company_name", fieldName := "Company Name",
    fieldType := .alphaNum, length := 16 },
  { key := "company_discretionary_data", fieldName := "Company Discretionary Data",
    fieldType := .alphaNum, length := 20, required := false },
  { key := "company_identification", fieldName := "Company Identification Number",
    fieldType := .integer, length := 10 },
  { key := "standard_entry_class_code", fieldName := "Standard Entry Class Code",
    fieldType := .alphaNum, length := 3, default := some "PPD".toList },
  { key := "company_entry_description", fieldName := "Company Entry Description",
    fieldType := .alphaNum, length := 10 },
  { key := "company_descriptive_date", fieldName := "Company Descriptive Date",
    fieldType := .date, length := 6, required := false },
  { key := "effective_entry_date", fieldName := "Effective Entry Date",
    fieldType := .date, length := 6, default := some "TOMORROW".toList,
    autoCorrectInput := some true },
  { key := "settlement_date", fieldName := "Settlement Date",
    fieldType := .alphaNum, length := 3, required := false },
  { key := "originator_status_code", fieldName := "Originator Status Code",
    fieldType := .integer, length := 1, default := some "1".toList },
  { key := "odfi_identification", fieldName := "ODFI Identification (Routing Without Final Digit)",
    fieldType := .integer, length := 8 },
  { key := "batch_number", fieldName := "Batch Number",
    fieldType := .integer, length := 7 }]

def entryDetailFieldDefs : List FieldDefinition := [
  { key := "record_type_code", fieldName := "Record Type Code",
    fieldType := .integer, length := 1, default := some "6".toList },
  { key := "transaction_code", fieldName := "Transaction Code",
    fieldType := .integer, length := 2 },
  { key := "rdfi_routing", fieldName := "RDFI Routing Number",
    fieldType := .integer, length := 9 },
  { key := "rdfi_account_number", fieldName := "RDFI Account Number",
    fieldType := .alphaNum, length := 17 },
  { key := "amount", fieldName := "Transaction Amount Expressed As Cents",
    fieldType := .integer, length := 10 },
  { key := "individual_identification_number",
    fieldName := "Individual Identification Number (Alphanumeric)",
    fieldType := .alphaNum, length := 15, required := false },
  { key := "individual_name", fieldName := "Individual Name",
    fieldType := .alphaNum, length := 22 },
  { key := "discretionary_data", fieldName := "Discretionary Data",
    fieldType := .alphaNum, length := 2, required := false },
  { key := "addenda_record_indicator", fieldName := "Addenda Record Indicator",
    fieldType := .integer, length := 1, default := some "1".toList },
  { key := "trace_odfi_identifier", fieldName := "Trace Number: ODFI Identifier",
    fieldType := .integer, length := 8 },
  { key := "trace_sequence_number", fieldName := "Trace Number: Sequence Number",
    fieldType := .integer, length := 7 }]

def addendaFieldDefs : List FieldDefinition := [
  { key := "record_type_code", fieldName := "Record Type Code",
    fieldType := .integer, length := 1, default := some "7".toList },
  { key := "addenda_type_code", fieldName := "Addenda Type Code",
    fieldType := .integer, length := 2, default := some "5".toList },
  { key := "payment_related_information", fieldName := "Payment Related Information",
    fieldType := .alphaNum, length := 80, required := false },
  { key := "addenda_sequence_number", fieldName := "Addenda Sequence Number",
    fieldType := .integer, length := 4, default := some "1".toList },
  { key := "entry_detail_sequence_number", fieldName := "Entry Detail Sequence Number",
    fieldType := .integer, length := 7 }]

def batchControlFieldDefs : List FieldDefinition := [
  { key := "record_type_code", fieldName := "Record Type Code",
    fieldType := .integer, length := 1, default := some "8".toList },
  { key := "service_class_code", fieldName := "Service Class Code",
    fieldType := .integer, length := 3, default := some "200".toList },
  { key := "entry_and_addenda_count", fieldName := "Entry and Addenda Count",
    fieldType := .integer, length := 6 },
  { key := "entry_hash", fieldName := "Entry Hash",
    fieldType := .integer, length := 10 },
  { key := "total_debit_amount", fieldName := "Total Debit Amount",
    fieldType := .integer, length := 12 },
  { key := "total_credit_amount", fieldName := "Total Credit Amount",
    fieldType := .integer, length := 12 },
  { key := "company_identification", fieldName := "Company Identification",
    fieldType := .integer, length := 10 },
  { key := "message_authentication_code", fieldName := "Message Authentication Code",
    fieldType := .alphaNum, length := 19, required := false },
  { key := "reserved", fieldName := "Reserved Space",
    fieldType := .alphaNum, length := 6, required := false },
  { key := "odfi_identification", fieldName := "ODFI Identification (First 8 of Routing)",
    fieldType := .integer, length := 8 },
  { key := "batch_number", fieldName := "Batch Number",
    fieldType := .integer, length := 7 }]

def fileControlFieldDefs : List FieldDefinition := [
  { key := "record_type_code", fieldName := "Record Type Code",
    fieldType := .integer, length := 1, default := some "9".toList },
  { key := "batch_count", fieldName := "Batch Count",
    fieldType := .integer, length := 6 },
  { key := "block_count", fieldName := "Block Count",
    fieldType := .integer, length := 6 },
  { key := "entry_and_addenda_count", fieldName := "Entry and Addenda Count",
    fieldType := .integer, length := 8 },
  { key := "entry_hash", fieldName := "Entry Hash",
    fieldType := .integer, length := 10 },
  { key := "total_debit_amount", fieldName := "Total Debit Amount",
    fieldType := .integer, length := 12 },
  { key := "total_credit_amount", fieldName := "Total Credit Amount",
    fieldType := .integer, length := 12 },
  { key := "reserved", fieldName := "Reserved Field",
    fieldType := .alphaNum, length := 39, required := false }]

/-- The six concrete schemas with their class names and leading type codes. -/
def sixSchemas : List (String × List FieldDefinition) := [
  ("FileHeaderRecordType", fileHeaderFieldDefs),
  ("BatchHeaderRecordType", batchHeaderFieldDefs),
  ("EntryDetailRecordType", entryDetailFieldDefs),
  ("AddendaRecordType", addendaFieldDefs),
  ("BatchControlRecordType", batchControlFieldDefs),
  ("FileControlRecordType", fileControlFieldDefs)]

/-! ## The aggregate tree (`file_structure.py`) -/

/-- `TransactionCode.is_credit`: `value % 10 < 5`. -/
def isCreditCode (n : Nat) : Bool := n % 10 < 5

/-- `TransactionCode.is_debit`: `value % 10 >= 5`. -/
def isDebitCode (n : Nat) : Bool := 5 ≤ n % 10

/-- `TransactionCode.is_prenote`: `value % 10 in [3, 8]`. -/
def isPrenoteCode (n : Nat) : Bool := n % 10 = 3 || n % 10 = 8

/-- `TransactionCode.is_checking`: `value // 10 == 2`. -/
def isCheckingCode (n : Nat) : Bool := n / 10 = 2

/-- `TransactionCode.is_savings`: `value // 10 == 3`. -/
def isSavingsCode (n : Nat) : Bool := n / 10 = 3

/-- `ACHTransactionEntry`: one entry-detail record plus its addendas. -/
structure ACHTransactionEntry where
  entry : RecordType
  addendas : List RecordType
deriving DecidableEq, Repr

namespace ACHTransactionEntry

/-- `get_entry_and_addenda_count`: `len(self.addendas) + 1`. -/
def getEntryAndAddendaCount (t : ACHTransactionEntry) : Nat :=
  t.addendas.length + 1

/-- `get_entry_hash_int`: `int(rdfi_routing[:8])`. -/
def getEntryHashInt (t : ACHTransactionEntry) : Nat :=
  pyIntNat ((getFieldValue t.entry "rdfi_routing").take 8)

/-- `get_transaction_code_enum` reduced to its integer value
(`TransactionCode(int(...))` admits any integer via `_missing_`). -/
def getTransactionCodeInt (t : ACHTransactionEntry) : Nat :=
  pyIntNat (getFieldValue t.entry "transaction_code")

/-- `get_amount`: `int(amount)`. -/
def getAmount (t : ACHTransactionEntry) : Nat :=
  pyIntNat (getFieldValue t.entry "amount")

/-- `get_debit_amount`. -/
def getDebitAmount (t : ACHTransactionEntry) : Nat :=
  if isDebitCode t.getTransactionCodeInt then t.getAmount else 0

/-- `get_credit_amount`. -/
def getCreditAmount (t : ACHTransactionEntry) : Nat :=
  if isCreditCode t.getTransactionCodeInt then t.getAmount else 0

/-- `get_rendered_line_list`: the entry line then each addenda line. -/
def getRenderedLineList (t : ACHTransactionEntry) : List Str :=
  renderRecordLine t.entry :: t.addendas.map renderRecordLine

/-- `add_addenda`. -/
def addAddenda (t : ACHTransactionEntry) (a : RecordType) : ACHTransactionEntry :=
  { t with addendas := t.addendas ++ [a] }

end ACHTransactionEntry

/-- `ACHBatch`: header record, transactions, and the private
batch-control cache (`_batch_control_record`, `_recalc_batch_control`). -/
structure ACHBatch where
  batchHeaderRecord : RecordType
  transactions : List ACHTransactionEntry
  batchControlRecordCache : Option RecordType := none
  recalcBatchControl : Bool := false
deriving DecidableEq, Repr

namespace ACHBatch

/-- `_compute_entry_hash`: sum of each transaction's hash contribution. -/
def computeEntryHash (b : ACHBatch) : Nat :=
  (b.transactions.map ACHTransactionEntry.getEntryHashInt).sum

/-- `_compute_entry_and_addenda_count`. -/
def computeEntryAndAddendaCount (b : ACHBatch) : Nat :=
  (b.transactions.map ACHTransactionEntry.getEntryAndAddendaCount).sum

/-- `_compute_debit_and_credit_totals` (first component). -/
def computeDebitTotal (b : ACHBatch) : Nat :=
  (b.transactions.map ACHTransactionEntry.getDebitAmount).sum

/-- `_compute_debit_and_credit_totals` (second component). -/
def computeCreditTotal (b : ACHBatch) : Nat :=
  (b.transactions.map ACHTransactionEntry.getCreditAmount).sum

/-- `_compute_batch_control_record`: a fresh `BatchControlRecordType` from
the computed aggregates (numbers passed through `str()`) and the header's
copied field values. -/
def computeBatchControlRecord (env : Env) (b : ACHBatch) : Except RecordErr RecordType :=
  mkRecord env "BatchControlRecordType" batchControlFieldDefs [
    ("entry_and_addenda_count", natToStr b.computeEntryAndAddendaCount),
    ("entry_hash", natToStr b.computeEntryHash),
    ("total_debit_amount", natToStr b.computeDebitTotal),
    ("total_credit_amount", natToStr b.computeCreditTotal),
    ("service_class_code", getFieldValue b.batchHeaderRecord "service_class_code"),
    ("company_identification", getFieldValue b.batchHeaderRecord "company_identification"),
    ("odfi_identification", getFieldValue b.batchHeaderRecord "odfi_identification"),
    ("batch_number", getFieldValue b.batchHeaderRecord "batch_number")]

/-- The value returned by the `batch_control_record` property getter. -/
def batchControlValue (env : Env) (b : ACHBatch) : Except RecordErr RecordType :=
  match b.batchControlRecordCache with
  | some c => if !b.recalcBatchControl then .ok c else computeBatchControlRecord env b
  | none => computeBatchControlRecord env b

/-- The `batch_control_record` property getter with its state effect: a
computed record is stored in the cache (the recalc flag is left as is). -/
def readBatchControl (env : Env) (b : ACHBatch) :
    Except RecordErr (RecordType × ACHBatch) :=
  match b.batchControlRecordCache with
  | some c =>
    if !b.recalcBatchControl then .ok (c, b)
    else
      match computeBatchControlRecord env b with
      | .ok r => .ok (r, { b with batchControlRecordCache := some r })
      | .error e => .error e
  | none =>
    match computeBatchControlRecord env b with
    | .ok r => .ok (r, { b with batchControlRecordCache := some r })
    | .error e => .error e

/-- The `batch_control_record` property setter ("for use by file parser"):
stores the record; the recalc flag is untouched. -/
def setBatchControlRecord (b : ACHBatch) (c : RecordType) : ACHBatch :=
  { b with batchControlRecordCache := some c }

/-- `add_transaction`: append, and mark stale if a control is cached. -/
def addTransaction (b : ACHBatch) (tx : ACHTransactionEntry) : ACHBatch :=
  { b with
    transactions := b.transactions ++ [tx]
    recalcBatchControl :=
      if b.batchControlRecordCache.isSome then true else b.recalcBatchControl }

/-- `remove_transaction_by_index`: `list.pop(index)` (none = `IndexError`). -/
def removeTransactionByIndex (b : ACHBatch) (i : Nat) :
    Option (ACHTransactionEntry × ACHBatch) :=
  match b.transactions[i]? with
  | none => none
  | some tx =>
    some (tx,
      { b with
        transactions := b.transactions.eraseIdx i
        recalcBatchControl :=
          if b.batchControlRecordCache.isSome then true else b.recalcBatchControl })

/-- The `batch_header_record` property setter: replace, and mark stale if a
control is cached. -/
def setBatchHeaderRecord (b : ACHBatch) (h : RecordType) : ACHBatch :=
  { b with
    batchHeaderRecord := h
    recalcBatchControl :=
      if b.batchControlRecordCache.isSome then true else b.recalcBatchControl }

/-- `ACHBatch.get_rendered_line_list` (reading the control mutates the
cache, so the updated batch is returned alongside the lines). -/
def getRenderedLineList (env : Env) (b : ACHBatch) :
    Except RecordErr (List Str × ACHBatch) :=
  match readBatchControl env b with
  | .error e => .error e
  | .ok (c, b') =>
    .ok (renderRecordLine b.batchHeaderRecord ::
      ((b.transactions.map ACHTransactionEntry.getRenderedLineList).flatten ++
        [renderRecordLine c]), b')

end ACHBatch

/-- A block-padding filler line: the type-code character 9 repeated to the
record width. -/
def fillerLine : Str := List.replicate RECORD_SIZE '9'

/-- `ACHFileContents`: header record, batches, and the private file-control
cache (`_file_control_record`, `_recalc_file_control`). -/
structure ACHFileContents where
  fileHeaderRecord : RecordType
  batches : List ACHBatch
  fileControlRecordCache : Option RecordType := none
  recalcFileControl : Bool := false
deriving DecidableEq, Repr

namespace ACHFileContents

/-- One pass of `(... for x in self.batches)` reading
`x.batch_control_record.get_field_value(key)`: every batch's control is read
(and possibly computed and cached) in order. -/
def readBatchField (env : Env) (key : String) :
    List ACHBatch → Except RecordErr (List Str × List ACHBatch)
  | [] => .ok ([], [])
  | b :: rest =>
    match ACHBatch.readBatchControl env b with
    | .error e => .error e
    | .ok (c, b') =>
      match readBatchField env key rest with
      | .error e => .error e
      | .ok (vs, rest') => .ok (getFieldValue c key :: vs, b' :: rest')

/-- `_compute_line_count`: entry/addenda count + 2 per batch + 2. -/
def computeLineCount (entryAddendaCount nBatches : Nat) : Nat :=
  entryAddendaCount + nBatches * 2 + 2

/-- `_compute_block_count`: `ceil(line_count / blocking_factor)`. -/
def computeBlockCount (lineCount : Nat) : Nat :=
  (lineCount + (FILE_HEADER_BLOCKING_FACTOR - 1)) / FILE_HEADER_BLOCKING_FACTOR

/-- `_compute_file_control_record`: the batch passes happen in source order
(debit totals, credit totals, entry/addenda counts, entry hashes), each one
reading — and on first touch computing and caching — every batch's control
record; the file control record is built from the summed `int(...)` values
of those records' fields. -/
def computeFileControlRecord (env : Env) (f : ACHFileContents) :
    Except RecordErr (RecordType × List ACHBatch) :=
  match readBatchField env "total_debit_amount" f.batches with
  | .error e => .error e
  | .ok (debits, bs1) =>
    match readBatchField env "total_credit_amount" bs1 with
    | .error e => .error e
    | .ok (credits, bs2) =>
      match readBatchField env "entry_and_addenda_count" bs2 with
      | .error e => .error e
      | .ok (entAdds, bs3) =>
        let entAddCount := (entAdds.map pyIntNat).sum
        match readBatchField env "entry_hash" bs3 with
        | .error e => .error e
        | .ok (hashes, bs4) =>
          match mkRecord env "FileControlRecordType" fileControlFieldDefs [
            ("batch_count", natToStr f.batches.length),
            ("block_count", natToStr (computeBlockCount
              (computeLineCount entAddCount f.batches.length))),
            ("entry_and_addenda_count", natToStr entAddCount),
            ("entry_hash", natToStr (hashes.map pyIntNat).sum),
            ("total_credit_amount", natToStr (credits.map pyIntNat).sum),
            ("total_debit_amount", natToStr (debits.map pyIntNat).sum)] with
          | .error e => .error e
          | .ok r => .ok (r, bs4)

/-- The `file_control_record` property getter with its state effect. -/
def readFileControl (env : Env) (f : ACHFileContents) :
    Except RecordErr (RecordType × ACHFileContents) :=
  match f.fileControlRecordCache with
  | some c =>
    if !f.recalcFileControl then .ok (c, f)
    else
      match computeFileControlRecord env f with
      | .ok (r, bs) =>
        .ok (r, { f with batches := bs, fileControlRecordCache := some r })
      | .error e => .error e
  | none =>
    match computeFileControlRecord env f with
    | .ok (r, bs) =>
      .ok (r, { f with batches := bs, fileControlRecordCache := some r })
    | .error e => .error e

/-- The `file_control_record` property setter ("for use by file parser"). -/
def setFileControlRecord (f : ACHFileContents) (c : RecordType) : ACHFileContents :=
  { f with fileControlRecordCache := some c }

/-- `add_batch`: append, and mark stale if a control is cached. -/
def addBatch (f : ACHFileContents) (b : ACHBatch) : ACHFileContents :=
  { f with
    batches := f.batches ++ [b]
    recalcFileControl :=
      if f.fileControlRecordCache.isSome then true else f.recalcFileControl }

/-- `remove_batch_by_index` (none = `IndexError`). -/
def removeBatchByIndex (f : ACHFileContents) (i : Nat) :
    Option (ACHBatch × ACHFileContents) :=
  match f.batches[i]? with
  | none => none
  | some b =>
    some (b,
      { f with
        batches := f.batches.eraseIdx i
        recalcFileControl :=
          if f.fileControlRecordCache.isSome then true else f.recalcFileControl })

/-- In-place mutation of a contained batch (`file.batches[i].add_transaction(tx)`):
only the batch's own flag is touched. -/
def addTransactionInBatch (f : ACHFileContents) (i : Nat)
    (tx : ACHTransactionEntry) : ACHFileContents :=
  match f.batches[i]? with
  | none => f
  | some b => { f with batches := f.batches.set i (b.addTransaction tx) }

/-- Threading `batch.get_rendered_line_list()` over `self.batches`. -/
def renderBatches (env : Env) :
    List ACHBatch → Except RecordErr (List Str × List ACHBatch)
  | [] => .ok ([], [])
  | b :: rest =>
    match ACHBatch.getRenderedLineList env b with
    | .error e => .error e
    | .ok (ls, b') =>
      match renderBatches env rest with
      | .error e => .error e
      | .ok (ls', rest') => .ok (ls ++ ls', b' :: rest')

/-- `ACHFileContents.get_rendered_line_list`: file header line, every
batch's lines, then the file control line (each control read through its
caching property). -/
def getRenderedLineList (env : Env) (f : ACHFileContents) :
    Except RecordErr (List Str × ACHFileContents) :=
  match renderBatches env f.batches with
  | .error e => .error e
  | .ok (batchLines, bs') =>
    match readFileControl env { f with batches := bs' } with
    | .error e => .error e
    | .ok (fc, f') =>
      .ok (renderRecordLine f.fileHeaderRecord :: batchLines ++
        [renderRecordLine fc], f')

/-- `render_file_contents(line_break, end)`: join the rendered lines; if the
line count is not a multiple of the blocking factor, append
`line_break + "9" * RECORD_SIZE` until it is; then append `end`. -/
def renderFileContents (env : Env) (f : ACHFileContents)
    (lineBreak : Str := ['\n']) (endStr : Str := ['\n']) :
    Except RecordErr (Str × ACHFileContents) :=
  match getRenderedLineList env f with
  | .error e => .error e
  | .ok (ls, f') =>
    let contents := joinWith lineBreak ls
    let orphan := ls.length % FILE_HEADER_BLOCKING_FACTOR
    let contents :=
      if orphan ≠ 0 then
        contents ++
          (List.replicate (FILE_HEADER_BLOCKING_FACTOR - orphan)
            (lineBreak ++ fillerLine)).flatten
      else contents
    .ok (contents ++ endStr, f')

end ACHFileContents

/-! ## The parser (`file_parser.py`) -/

namespace ACHFileContentsParser

/-- `get_record_type_from_record_type_code`: leading character to schema
(class name and field definitions); other codes crash (`int('x')` or
`None(**kwargs)`), modelled as `none`. -/
def getRecordTypeFromRecordTypeCode (c : Char) :
    Option (String × List FieldDefinition) :=
  if c = '7' then some ("AddendaRecordType", addendaFieldDefs)
  else if c = '8' then some ("BatchControlRecordType", batchControlFieldDefs)
  else if c = '5' then some ("BatchHeaderRecordType", batchHeaderFieldDefs)
  else if c = '6' then some ("EntryDetailRecordType", entryDetailFieldDefs)
  else if c = '9' then some ("FileControlRecordType", fileControlFieldDefs)
  else if c = '1' then some ("FileHeaderRecordType", fileHeaderFieldDefs)
  else none

/-- The kwargs of `convert_line_to_record_type`: consecutive substrings of
the line, sliced to each field definition's length in schema order. -/
def sliceKwargs : List FieldDefinition → Str → List (String × Str)
  | [], _ => []
  | d :: ds, rest => (d.key, rest.take d.length) :: sliceKwargs ds (rest.drop d.length)

/-- `convert_line_to_record_type`. -/
def convertLineToRecordType (env : Env) (className : String)
    (schema : List FieldDefinition) (line : Str) : Except RecordErr RecordType :=
  mkRecord env className schema (sliceKwargs schema line)

/-- The loop of `convert_file_string_to_records_list`: blank lines and pure
filler lines are skipped, every other line is decoded by its leading
character's schema. -/
def linesToRecords (env : Env) : List Str → Except RecordErr (List RecordType)
  | [] => .ok []
  | line :: rest =>
    if line = [] || line = fillerLine then linesToRecords env rest
    else
      match line.head? with
      | none => linesToRecords env rest
      | some c =>
        match getRecordTypeFromRecordTypeCode c with
        | none => .error .unknownRecordTypeCode
        | some (className, schema) =>
          match convertLineToRecordType env className schema line with
          | .error e => .error e
          | .ok r =>
            match linesToRecords env rest with
            | .error e => .error e
            | .ok rs => .ok (r :: rs)

/-- `convert_file_string_to_records_list` at its default
`line_break='\n'`. -/
def convertFileStringToRecordsList (env : Env) (fileStr : Str) :
    Except RecordErr (List RecordType) :=
  linesToRecords env (splitNl fileStr)

/-- `_convert_batch_transaction_record_types_to_ach_transaction_entry_list`:
an addenda record is attached to the pending entry's list; any other record
closes the pending entry (if one exists) and becomes the new pending one; a
final entry is appended unconditionally — with no pending entry Python
builds `ACHTransactionEntry(None, ...)`, which crashes on any use, modelled
as an error. -/
def recordsToTxEntries : List RecordType → Option RecordType → List RecordType →
    Except RecordErr (List ACHTransactionEntry)
  | [], curr, adds =>
    match curr with
    | some e => .ok [⟨e, adds⟩]
    | none => .error .noneTypeError
  | r :: rest, curr, adds =>
    if getFieldValue r "record_type_code" = ['7'] then
      recordsToTxEntries rest curr (adds ++ [r])
    else
      match curr with
      | some e =>
        match recordsToTxEntries rest (some r) [] with
        | .error er => .error er
        | .ok es => .ok (⟨e, adds⟩ :: es)
      | none => recordsToTxEntries rest (some r) []

/-- `_convert_sub_records_list_to_ach_batch_list`: a batch-header record
starts a fresh accumulator; a batch-control record packages the accumulated
records into an `ACHBatch` (attaching the decoded control verbatim unless
`recalc_batch_control`); other records join the current accumulator; a
record arriving before any batch header is a `KeyError`.  The accumulator
list is the same object in the dict, so it is not reset when a batch is
emitted. -/
def recordsToBatches (recalcBatchControl : Bool) :
    List RecordType → Option RecordType → List RecordType → List ACHBatch →
    Except RecordErr (List ACHBatch)
  | [], _, _, acc => .ok acc
  | r :: rest, currHeader, currList, acc =>
    if getFieldValue r "record_type_code" = ['5'] then
      recordsToBatches recalcBatchControl rest (some r) [] acc
    else if getFieldValue r "record_type_code" = ['8'] then
      match currHeader with
      | none => .error .keyError
      | some h =>
        match recordsToTxEntries currList none [] with
        | .error e => .error e
        | .ok txs =>
          recordsToBatches recalcBatchControl rest currHeader currList
            (acc ++ [if !recalcBatchControl then
                ACHBatch.setBatchControlRecord ⟨h, txs, none, false⟩ r
              else ⟨h, txs, none, false⟩])
    else
      match currHeader with
      | none => .error .keyError
      | some _ =>
        recordsToBatches recalcBatchControl rest currHeader (currList ++ [r]) acc

/-- `convert_records_list_to_ach_file_contents`: `records_list[0]` is the
file header, `records_list[1:-1]` the batch region, `records_list[-1]` the
file control (attached verbatim unless `recalc_control_records`). -/
def convertRecordsListToACHFileContents (records : List RecordType)
    (recalcControlRecords : Bool := false) : Except RecordErr ACHFileContents :=
  match records with
  | [] => .error .indexError
  | first :: rest =>
    match recordsToBatches recalcControlRecords ((first :: rest).drop 1).dropLast
        none [] [] with
    | .error e => .error e
    | .ok batches =>
      let f : ACHFileContents := ⟨first, batches, none, false⟩
      match (first :: rest).getLast? with
      | none => .error .indexError
      | some last =>
        .ok (if !recalcControlRecords then f.setFileControlRecord last else f)

/-- `process_ach_file_contents()` with no records list supplied: parse the
raw string, then assemble the tree with control records attached
verbatim. -/
def processACHFileContents (env : Env) (fileStr : Str) :
    Except RecordErr ACHFileContents :=
  match convertFileStringToRecordsList env fileStr with
  | .error e => .error e
  | .ok records => convertRecordsListToACHFileContents records false

end ACHFileContentsParser

/-! ## Derived and specification-side definitions -/

/-- `get_all_transactions`: every transaction across all batches, in order. -/
def ACHFileContents.getAllTransactions (f : ACHFileContents) : List ACHTransactionEntry :=
  (f.batches.map ACHBatch.transactions).flatten

/-- Specification-side phrase of claim C6: `n` rounded up to the nearest
multiple of `m` (to be compared against what the code computes). -/
def roundUpToMultiple (m n : Nat) : Nat := ((n + m - 1) / m) * m

/-- A line that decodes through the given schema without error and whose
decoded record re-renders to the very same line. -/
def stableLine (env : Env) (className : String) (schema : List FieldDefinition)
    (line : Str) : Bool :=
  match ACHFileContentsParser.convertLineToRecordType env className schema line with
  | .ok r => renderRecordLine r == line
  | .error _ => false

/-- A well-formed physical line of the given record type: starts with the
type code, contains no line break, and decodes stably. -/
def goodLine (env : Env) (code : Char) (className : String)
    (schema : List FieldDefinition) (line : Str) : Bool :=
  line.head? == some code && !line.contains '\n' &&
    stableLine env className schema line

/-- Well-formed input shape: one transaction's lines. -/
structure WFTx where
  entryLine : Str
  addendaLines : List Str
deriving DecidableEq, Repr

/-- Well-formed input shape: one batch's lines. -/
structure WFBatch where
  headerLine : Str
  txs : List WFTx
  controlLine : Str
deriving DecidableEq, Repr

/-- Well-formed input shape: a whole file's record lines. -/
structure WFFile where
  headerLine : Str
  batches : List WFBatch
  controlLine : Str
deriving DecidableEq, Repr

def WFTx.lines (t : WFTx) : List Str := t.entryLine :: t.addendaLines

def WFBatch.lines (b : WFBatch) : List Str :=
  b.headerLine :: ((b.txs.map WFTx.lines).flatten ++ [b.controlLine])

def WFFile.recordLines (w : WFFile) : List Str :=
  w.headerLine :: ((w.batches.map WFBatch.lines).flatten ++ [w.controlLine])

def WFTx.ok (env : Env) (t : WFTx) : Bool :=
  goodLine env '6' "EntryDetailRecordType" entryDetailFieldDefs t.entryLine &&
  t.addendaLines.all (goodLine env '7' "AddendaRecordType" addendaFieldDefs)

def WFBatch.ok (env : Env) (b : WFBatch) : Bool :=
  goodLine env '5' "BatchHeaderRecordType" batchHeaderFieldDefs b.headerLine &&
  !b.txs.isEmpty && b.txs.all (WFTx.ok env) &&
  goodLine env '8' "BatchControlRecordType" batchControlFieldDefs b.controlLine

/-- Well-formed NACHA input: every line is a stable 94-character line of its
announced type, every batch holds at least one entry, and the file-control
line is not the pure-filler line (which the parser would discard). -/
def WFFile.ok (env : Env) (w : WFFile) : Bool :=
  goodLine env '1' "FileHeaderRecordType" fileHeaderFieldDefs w.headerLine &&
  w.batches.all (WFBatch.ok env) &&
  goodLine env '9' "FileControlRecordType" fileControlFieldDefs w.controlLine &&
  !(w.controlLine == fillerLine)

/-- The number of block-padding filler lines a correctly blocked file
carries after its record lines. -/
def WFFile.padCount (w : WFFile) : Nat :=
  (FILE_HEADER_BLOCKING_FACTOR - w.recordLines.length % FILE_HEADER_BLOCKING_FACTOR) %
    FILE_HEADER_BLOCKING_FACTOR

/-- The flat text of a well-formed file: record lines, then exactly the
filler lines needed to reach a multiple of the blocking factor, newline
separated, with one trailing newline. -/
def WFFile.text (w : WFFile) : Str :=
  joinWith ['\n'] (w.recordLines ++ List.replicate w.padCount fillerLine) ++ ['\n']

/-- A line decodes to exactly this record, and the record renders back to
the line. -/
def parsesTo (env : Env) (className : String) (schema : List FieldDefinition)
    (line : Str) (r : RecordType) : Prop :=
  ACHFileContentsParser.convertLineToRecordType env className schema line = .ok r ∧
  renderRecordLine r = line

/-- The parsed counterpart of one well-formed transaction. -/
def TxRel (env : Env) (t : WFTx) (e : ACHTransactionEntry) : Prop :=
  parsesTo env "EntryDetailRecordType" entryDetailFieldDefs t.entryLine e.entry ∧
  List.Forall₂ (parsesTo env "AddendaRecordType" addendaFieldDefs)
    t.addendaLines e.addendas

/-- The parsed counterpart of one well-formed batch: its decoded control
record is attached verbatim in the cache with a clean recalc flag. -/
def BatchRel (env : Env) (wb : WFBatch) (b : ACHBatch) : Prop :=
  parsesTo env "BatchHeaderRecordType" batchHeaderFieldDefs wb.headerLine
    b.batchHeaderRecord ∧
  List.Forall₂ (TxRel env) wb.txs b.transactions ∧
  (∃ c, parsesTo env "BatchControlRecordType" batchControlFieldDefs wb.controlLine c ∧
    b.batchControlRecordCache = some c) ∧
  b.recalcBatchControl = false

/-- The parsed counterpart of a whole well-formed file. -/
def FileRel (env : Env) (w : WFFile) (f : ACHFileContents) : Prop :=
  parsesTo env "FileHeaderRecordType" fileHeaderFieldDefs w.headerLine
    f.fileHeaderRecord ∧
  List.Forall₂ (BatchRel env) w.batches f.batches ∧
  (∃ c, parsesTo env "FileControlRecordType" fileControlFieldDefs w.controlLine c ∧
    f.fileControlRecordCache = some c) ∧
  f.recalcFileControl = false

/-! ## Concrete instances used by witnesses and counterexamples -/

/-- Environment instance for witnesses (the clock-dependent branches are
never reached on the witness inputs). -/
def env0 : Env := {}

def litPadded (s : String) (n : Nat) : Str :=
  s.toList ++ List.replicate (n - s.length) ' '

def spacesStr (n : Nat) : Str := List.replicate n ' '

def fhLineW : Str :=
  "101 0123456780123456789220102".toList ++ "0102A094101".toList ++
  litPadded "DEST BANK" 23 ++ litPadded "YOUR COMPANY" 23 ++ spacesStr 8

def bhLineW : Str :=
  "5200".toList ++ litPadded "YOUR COMPANY" 16 ++ spacesStr 20 ++
  "0123456789PPD".toList ++ litPadded "PAYROLL" 10 ++ spacesStr 6 ++
  "220103".toList ++ spacesStr 3 ++ "1012345670000001".toList

def edLineW : Str :=
  "622123456789".toList ++ litPadded "123456789" 17 ++ "0000000300".toList ++
  spacesStr 15 ++ litPadded "ALICE WANDERDUST" 22 ++ spacesStr 2 ++
  "1012345670000001".toList

def adLineW : Str :=
  "705".toList ++ litPadded "HERE IS SOME ADDITIONAL INFORMATION" 80 ++
  "00010000001".toList

def bcLineW : Str :=
  "82000000020012345678000000000000000000000300".toList ++
  "0123456789".toList ++ spacesStr 25 ++ "012345670000001".toList

def fcLineW : Str :=
  "9000001000001000000020012345678000000000000000000000300".toList ++ spacesStr 39

/-- A concrete well-formed file: one batch, one transaction, one addenda. -/
def wfFileW : WFFile := ⟨fhLineW, [⟨bhLineW, [⟨edLineW, [adLineW]⟩], bcLineW⟩], fcLineW⟩

/-- An entry-detail record as used by tree-level witnesses (only the fields
the aggregation reads). -/
def entryW : RecordType :=
  ⟨[("transaction_code", "22".toList), ("rdfi_routing", "999999999".toList),
    ("amount", "0000000001".toList)]⟩

def txW : ACHTransactionEntry := ⟨entryW, []⟩

/-- A batch-header record carrying the four field values the batch-control
computation copies. -/
def batchHeaderW : RecordType :=
  ⟨[("service_class_code", "200".toList),
    ("company_identification", "0123456789".toList),
    ("odfi_identification", "01234567".toList),
    ("batch_number", "0000001".toList)]⟩

/-- One batch with 101 equal transactions: its entry-hash sum
101 * 99999999 = 10099999899 exceeds ten decimal digits. -/
def bigBatch : ACHBatch := ⟨batchHeaderW, List.replicate 101 txW, none, false⟩

def bigFile : ACHFileContents := ⟨⟨[]⟩, [bigBatch], none, false⟩

def smallBatch : ACHBatch := ⟨batchHeaderW, [txW], none, false⟩

def smallFile : ACHFileContents := ⟨⟨[]⟩, [smallBatch], none, false⟩

/-- The file control record computed for `smallFile`. -/
def smallFileControl : RecordType :=
  match ACHFileContents.readFileControl env0 smallFile with
  | .ok p => p.1
  | .error _ => ⟨[]⟩

/-- The file control record computed for `bigFile`. -/
def bigFileControl : RecordType :=
  match ACHFileContents.readFileControl env0 bigFile with
  | .ok p => p.1
  | .error _ => ⟨[]⟩

/-- The batch control record computed for `bigBatch`. -/
def bigBatchControl : RecordType :=
  match ACHBatch.readBatchControl env0 bigBatch with
  | .ok p => p.1
  | .error _ => ⟨[]⟩

/-- `smallFile` after its control record has been read (and cached). -/
def smallFileRead : ACHFileContents :=
  match ACHFileContents.readFileControl env0 smallFile with
  | .ok p => p.2
  | .error _ => smallFile

/-- `smallFileRead` after a transaction is added inside its only batch. -/
def smallFileMutated : ACHFileContents :=
  ACHFileContents.addTransactionInBatch smallFileRead 0 txW

/-- `smallBatch` after its control record has been read (and cached). -/
def smallBatchRead : ACHBatch :=
  match ACHBatch.readBatchControl env0 smallBatch with
  | .ok p => p.2
  | .error _ => smallBatch

/-- The rendered line list of `smallFile` with the resulting state. -/
def smallRenderPair : List Str × ACHFileContents :=
  match ACHFileContents.getRenderedLineList env0 smallFile with
  | .ok p => p
  | .error _ => ([], smallFile)

/-- `bigFile` after its control record has been read (and cached). -/
def bigFileRead : ACHFileContents :=
  match ACHFileContents.readFileControl env0 bigFile with
  | .ok p => p.2
  | .error _ => bigFile

/-- The batch control record read for `smallBatch`. -/
def smallBatchControl : RecordType :=
  match ACHBatch.readBatchControl env0 smallBatch with
  | .ok p => p.1
  | .error _ => ⟨[]⟩

/-- The batch control record computed for `bigBatch`. -/
def bigBatchComputed : RecordType :=
  match ACHBatch.computeBatchControlRecord env0 bigBatch with
  | .ok c => c
  | .error _ => ⟨[]⟩

/-- The file control record computed for `smallFile`, with the batch list
it leaves behind. -/
def smallComputedControl : RecordType :=
  match ACHFileContents.computeFileControlRecord env0 smallFile with
  | .ok p => p.1
  | .error _ => ⟨[]⟩

def smallComputedBatches : List ACHBatch :=
  match ACHFileContents.computeFileControlRecord env0 smallFile with
  | .ok p => p.2
  | .error _ => []

/-- The file control record recomputed for `smallFileMutated`. -/
def smallMutatedComputed : RecordType :=
  match ACHFileContents.computeFileControlRecord env0 smallFileMutated with
  | .ok p => p.1
  | .error _ => ⟨[]⟩

def smallMutatedComputedBatches : List ACHBatch :=
  match ACHFileContents.computeFileControlRecord env0 smallFileMutated with
  | .ok p => p.2
  | .error _ => []

/-- The file control record computed for `bigFile`, with its batch list. -/
def bigComputedControl : RecordType :=
  match ACHFileContents.computeFileControlRecord env0 bigFile with
  | .ok p => p.1
  | .error _ => ⟨[]⟩

def bigComputedBatches : List ACHBatch :=
  match ACHFileContents.computeFileControlRecord env0 bigFile with
  | .ok p => p.2
  | .error _ => []

/-- A batch with 51 equal transactions: its entry-hash sum 51 * 99999999 =
5099999949 still fits in ten digits, so its control field carries it whole. -/
def hashBatch : ACHBatch := ⟨batchHeaderW, List.replicate 51 txW, none, false⟩

/-- Two such batches: the file-level entry-hash sum 2 * 5099999949 =
10199999898 exceeds ten decimal digits. -/
def hashFile : ACHFileContents := ⟨⟨[]⟩, [hashBatch, hashBatch], none, false⟩

/-- The file control record computed for `hashFile`, with its batch list. -/
def hashComputedControl : RecordType :=
  match ACHFileContents.computeFileControlRecord env0 hashFile with
  | .ok p => p.1
  | .error _ => ⟨[]⟩

def hashComputedBatches : List ACHBatch :=
  match ACHFileContents.computeFileControlRecord env0 hashFile with
  | .ok p => p.2
  | .error _ => []

/-- Witness kwargs for a file control record construction. -/
def fcKwargsW : List (String × Str) :=
  [("batch_count", "1".toList), ("block_count", "1".toList),
   ("entry_and_addenda_count", "2".toList), ("entry_hash", "12345678".toList),
   ("total_credit_amount", "300".toList), ("total_debit_amount", "0".toList)]

/-- The record built from `fcKwargsW`. -/
def fcRecordW : RecordType :=
  match mkRecord env0 "FileControlRecordType" fileControlFieldDefs fcKwargsW with
  | .ok r => r
  | .error _ => ⟨[]⟩

/-- An alphanumeric field definition with auto-correction disabled. -/
def alphaNoCorrectDef : FieldDefinition :=
  { key := "x", fieldName := "X", fieldType := .alphaNum, length := 5,
    autoCorrectInput := some false }

/-- The same alphanumeric field definition with auto-correction enabled. -/
def alphaCorrectDef : FieldDefinition :=
  { key := "x", fieldName := "X", fieldType := .alphaNum, length := 5,
    autoCorrectInput := some true }

/-- A raw value containing the disallowed character. -/
def hashValueW : Str := "ab#cd".toList

/-- A record whose `record_type_code` field value is the given character. -/
def CodedRecord (code : Char) (r : RecordType) : Prop :=
  getFieldValue r "record_type_code" = [code]

/-- A line together with its parsed record, carrying everything the parser
loop observes: a leading type code resolving to a schema, not blank, not
pure filler, no embedded line break, and a stable decode. -/
def GoodParsedLine (env : Env) (line : Str) (r : RecordType) : Prop :=
  ∃ code cn schema, line.head? = some code ∧
    ACHFileContentsParser.getRecordTypeFromRecordTypeCode code = some (cn, schema) ∧
    line ≠ fillerLine ∧ line.contains '\n' = false ∧
    parsesTo env cn schema line r

/-- The records of one transaction entry, in physical order. -/
def txRecords (e : ACHTransactionEntry) : List RecordType :=
  e.entry :: e.addendas

/-- The records of a list of transaction entries. -/
def txsRecords (es : List ACHTransactionEntry) : List RecordType :=
  (es.map txRecords).flatten

/-- The record region of one parsed batch: header, transactions, control
(the control taken from the verbatim cache). -/
def batchRegionRecords (b : ACHBatch) : List RecordType :=
  b.batchHeaderRecord :: (txsRecords b.transactions ++
    [b.batchControlRecordCache.getD ⟨[]⟩])

/-- The record the `batch_control_record` property getter returns (default
the empty record when the computation fails). -/
def batchControlValueD (env : Env) (b : ACHBatch) : RecordType :=
  match ACHBatch.batchControlValue env b with
  | .ok c => c
  | .error _ => ⟨[]⟩

/-- The per-batch cache update performed by a read of the control record. -/
def cacheBatchControl (env : Env) (b : ACHBatch) : ACHBatch :=
  { b with batchControlRecordCache := some (batchControlValueD env b) }

/-- The file-level in-memory accumulation: the sum over the batches of the
`int(...)` of the named field of each batch's control record. -/
def fileBatchFieldSum (env : Env) (key : String) (f : ACHFileContents) : Nat :=
  (f.batches.map fun b => pyIntNat (getFieldValue (batchControlValueD env b) key)).sum

/-- Shape facts about a parsed batch that steer the reassembly loop. -/
def BatchShape (b : ACHBatch) : Prop :=
  CodedRecord '5' b.batchHeaderRecord ∧
  b.transactions ≠ [] ∧
  (∀ e ∈ b.transactions, CodedRecord '6' e.entry ∧ ∀ a ∈ e.addendas, CodedRecord '7' a) ∧
  (∃ c, b.batchControlRecordCache = some c ∧ CodedRecord '8' c) ∧
  b.recalcBatchControl = false

/-! ## Lemmas: decimal strings and numbers -/

theorem natDigitsRevAux_congr :
    ∀ (fuel₁ : Nat) {fuel₂ n : Nat}, n ≤ fuel₁ → n ≤ fuel₂ →
    natDigitsRevAux n fuel₁ = natDigitsRevAux n fuel₂ := by
  intro fuel₁
  induction fuel₁ using Nat.strong_induction_on with
  | _ fuel₁ ih =>
    intro fuel₂ n h₁ h₂
    match fuel₁, fuel₂ with
    | 0, 0 => rfl
    | 0, f₂ + 1 =>
      have hn : n = 0 := by omega
      subst hn
      rw [natDigitsRevAux, natDigitsRevAux, if_pos rfl]
    | f₁ + 1, 0 =>
      have hn : n = 0 := by omega
      subst hn
      rw [natDigitsRevAux, natDigitsRevAux, if_pos rfl]
    | f₁ + 1, f₂ + 1 =>
      rw [natDigitsRevAux, natDigitsRevAux]
      by_cases hn : n = 0
      · rw [if_pos hn, if_pos hn]
      · rw [if_neg hn, if_neg hn]
        congr 1
        have hdiv : n / 10 < n := Nat.div_lt_self (by omega) (by decide)
        exact ih f₁ (by omega) (by omega) (by omega)

theorem natDigitsRev_zero : natDigitsRev 0 = [] := rfl

theorem natDigitsRev_succ {n : Nat} (hn : n ≠ 0) :
    natDigitsRev n = digitChar (n % 10) :: natDigitsRev (n / 10) := by
  unfold natDigitsRev
  match n, hn with
  | m + 1, _ =>
    rw [natDigitsRevAux, if_neg (by omega)]
    congr 1
    have hdiv : (m + 1) / 10 < m + 1 := Nat.div_lt_self (by omega) (by decide)
    exact natDigitsRevAux_congr m (by omega) (by omega)

theorem digitVal_digitChar {d : Nat} (h : d < 10) : digitVal (digitChar d) = d := by
  interval_cases d <;> decide

theorem isPyDigit_digitChar {d : Nat} (h : d < 10) : isPyDigit (digitChar d) = true := by
  interval_cases d <;> decide

theorem natDigitsRev_digits (n : Nat) : ∀ c ∈ natDigitsRev n, isPyDigit c = true := by
  induction n using Nat.strong_induction_on with
  | _ n ih =>
    match n with
    | 0 => simp [natDigitsRev_zero]
    | m + 1 =>
      rw [natDigitsRev_succ (by omega)]
      intro c hc
      rcases List.mem_cons.mp hc with h | h
      · subst h; exact isPyDigit_digitChar (Nat.mod_lt _ (by decide))
      · exact ih ((m + 1) / 10) (Nat.div_lt_self (Nat.succ_pos m) (by decide)) c h

theorem natToStr_digits (n : Nat) : ∀ c ∈ natToStr n, isPyDigit c = true := by
  unfold natToStr
  split
  · simp only [List.mem_singleton]
    intro c hc; subst hc; decide
  · intro c hc
    exact natDigitsRev_digits n c (List.mem_reverse.mp hc)

theorem natToStr_ne_nil (n : Nat) : natToStr n ≠ [] := by
  unfold natToStr
  split
  · simp
  · intro h
    rename_i hn
    have habs : natDigitsRev n = [] := by
      have := congrArg List.length h
      simpa using this
    rw [natDigitsRev_succ hn] at habs
    cases habs

theorem parseDigits_concat (s : Str) (c : Char) :
    parseDigits (s ++ [c]) = 10 * parseDigits s + digitVal c := by
  unfold parseDigits
  rw [List.foldl_append]
  simp [Nat.mul_comm]

theorem parseDigits_natDigitsRev (n : Nat) :
    parseDigits (natDigitsRev n).reverse = n := by
  induction n using Nat.strong_induction_on with
  | _ n ih =>
    match n with
    | 0 => simp [natDigitsRev_zero, parseDigits]
    | m + 1 =>
      rw [natDigitsRev_succ (by omega), List.reverse_cons, parseDigits_concat,
        ih ((m + 1) / 10) (Nat.div_lt_self (Nat.succ_pos m) (by decide)),
        digitVal_digitChar (Nat.mod_lt _ (by decide))]
      exact Nat.div_add_mod (m + 1) 10

theorem parseDigits_natToStr (n : Nat) : parseDigits (natToStr n) = n := by
  unfold natToStr
  split
  · simp [parseDigits, digitVal]
    omega
  · exact parseDigits_natDigitsRev n

theorem natDigitsRev_length_le {n k : Nat} (h : n < 10 ^ k) :
    (natDigitsRev n).length ≤ k := by
  induction n using Nat.strong_induction_on generalizing k with
  | _ n ih =>
    match n with
    | 0 => simp [natDigitsRev_zero]
    | m + 1 =>
      rw [natDigitsRev_succ (by omega)]
      match k with
      | 0 => omega
      | j + 1 =>
        simp only [List.length_cons]
        have hdiv : (m + 1) / 10 < 10 ^ j := by
          have h10 : m + 1 < 10 * 10 ^ j := by
            have := Nat.pow_succ 10 j
            omega
          exact Nat.div_lt_of_lt_mul h10
        have := ih ((m + 1) / 10) (Nat.div_lt_self (Nat.succ_pos m) (by decide)) hdiv
        omega

theorem natToStr_length_le {n k : Nat} (h : n < 10 ^ k) (hk : 0 < k) :
    (natToStr n).length ≤ k := by
  unfold natToStr
  split
  · simpa using hk
  · simpa using natDigitsRev_length_le h

theorem isPySpace_of_isPyDigit {c : Char} (h : isPyDigit c = true) :
    isPySpace c = false := by
  unfold isPyDigit at h
  unfold isPySpace
  simp only [Bool.and_eq_true, decide_eq_true_eq] at h
  simp only [Bool.or_eq_false_iff, decide_eq_false_iff_not]
  obtain ⟨h1, h2⟩ := h
  refine ⟨⟨⟨⟨⟨?_, ?_⟩, ?_⟩, ?_⟩, ?_⟩, ?_⟩ <;>
    · intro hc; subst hc; revert h1 h2; decide

theorem stripWs_of_digits {s : Str} (h : ∀ c ∈ s, isPyDigit c = true) :
    stripWs s = s := by
  unfold stripWs
  have h1 : s.dropWhile isPySpace = s := by
    cases s with
    | nil => rfl
    | cons c rest =>
      rw [List.dropWhile_cons_of_neg]
      simp [isPySpace_of_isPyDigit (h c (List.mem_cons_self c rest))]
  rw [h1]
  have h2 : s.reverse.dropWhile isPySpace = s.reverse := by
    cases hr : s.reverse with
    | nil => rfl
    | cons c rest =>
      rw [List.dropWhile_cons_of_neg]
      have hc : c ∈ s := by
        rw [← List.mem_reverse, hr]; exact List.mem_cons_self c rest
      simp [isPySpace_of_isPyDigit (h c hc)]
  rw [h2, List.reverse_reverse]

theorem parseDigits_replicate_zero (k : Nat) (s : Str) :
    parseDigits (List.replicate k '0' ++ s) = parseDigits s := by
  induction k with
  | zero => simp
  | succ j ih =>
    rw [List.replicate_succ, List.cons_append]
    unfold parseDigits at ih ⊢
    simpa [digitVal] using ih

theorem pyIntNat_zeroPadded_natToStr (k : Nat) (n : Nat) :
    pyIntNat (List.replicate k '0' ++ natToStr n) = n := by
  unfold pyIntNat
  rw [stripWs_of_digits, parseDigits_replicate_zero, parseDigits_natToStr]
  intro c hc
  rcases List.mem_append.mp hc with h | h
  · rw [List.eq_of_mem_replicate h]; decide
  · exact natToStr_digits n c h

theorem pyIntNat_natToStr (n : Nat) : pyIntNat (natToStr n) = n := by
  have := pyIntNat_zeroPadded_natToStr 0 n
  simpa using this

/-! ## Lemmas: alignment and fixed-width rendering -/

theorem align_length (a : Alignment) (s : Str) (n : Nat) (pad : Char) :
    (a.align s n pad).length = max s.length n := by
  cases a <;> simp [Alignment.align] <;> omega

theorem applyFixedLength_length (t : FieldTypeTag) (s : Str) {len : Nat}
    (h : 0 < len) : (applyFixedLength t s len).length = len := by
  unfold applyFixedLength
  cases ha : alignmentOf t with
  | LEFT =>
    rw [Alignment.truncate]
    have := align_length .LEFT s len (paddingOf t)
    simp only [List.length_take, this]
    omega
  | RIGHT =>
    rw [Alignment.truncate]
    have := align_length .RIGHT s len (paddingOf t)
    split
    · omega
    · simp only [List.length_drop, this]
      omega

theorem applyFixedLength_of_length_eq (t : FieldTypeTag) {s : Str} {len : Nat}
    (h : s.length = len) : applyFixedLength t s len = s := by
  unfold applyFixedLength
  cases alignmentOf t with
  | LEFT =>
    rw [Alignment.align, Alignment.truncate]
    rw [h, Nat.sub_self, List.replicate_zero, List.append_nil]
    rw [← h, List.take_length]
  | RIGHT =>
    rw [Alignment.align, Alignment.truncate]
    rw [h, Nat.sub_self, List.replicate_zero, List.nil_append]
    split
    · rfl
    · rw [h, Nat.sub_self, List.drop_zero]

theorem applyFixedLength_right_pad (t : FieldTypeTag) {s : Str} {len : Nat}
    (ha : alignmentOf t = .RIGHT) (h : s.length ≤ len) :
    applyFixedLength t s len = List.replicate (len - s.length) (paddingOf t) ++ s := by
  unfold applyFixedLength
  rw [ha, Alignment.align, Alignment.truncate]
  split
  · rename_i h0
    subst h0
    have : s.length = 0 := by omega
    rw [this, Nat.sub_self, List.replicate_zero, List.nil_append]
  · have hlen : (List.replicate (len - s.length) (paddingOf t) ++ s).length = len := by
      simp only [List.length_append, List.length_replicate]
      omega
    rw [hlen, Nat.sub_self, List.drop_zero]

theorem applyFixedLength_right_trunc (t : FieldTypeTag) {s : Str} {len : Nat}
    (ha : alignmentOf t = .RIGHT) (h : len ≤ s.length) (hl : 0 < len) :
    applyFixedLength t s len = s.drop (s.length - len) := by
  unfold applyFixedLength
  rw [ha, Alignment.align, Alignment.truncate]
  rw [Nat.sub_eq_zero_of_le h, List.replicate_zero, List.nil_append]
  split
  · omega
  · rfl

/-! ## Lemmas: field and record construction -/

theorem createCleanedValue_ok_length {env : Env} {d : FieldDefinition}
    {v : Option Str} {s : Str} (hl : 0 < d.length)
    (h : createCleanedValue env d v = .ok s) : s.length = d.length := by
  unfold createCleanedValue at h
  split at h
  · cases h
  · split at h
    · cases h
      exact applyFixedLength_length _ _ hl
    · cases h

/-- The relation between a schema and a successfully built record's field
list: keys match in order and each value is the ok-result of its field's
construction. -/
def FieldsSpec (env : Env) (kwargs : List (String × Str))
    (schema : List FieldDefinition) (fields : List (String × Str)) : Prop :=
  List.Forall₂
    (fun d p => p.1 = d.key ∧
      createCleanedValue env d (kwargs.lookup d.key) = .ok p.2)
    schema fields

theorem forall₂_of_all_ok (env : Env) (kwargs : List (String × Str)) :
    ∀ schema : List FieldDefinition,
    (∀ d ∈ schema, (exceptOk? (createCleanedValue env d (kwargs.lookup d.key))).isSome) →
    FieldsSpec env kwargs schema
      ((fieldResults env schema kwargs).filterMap
        fun p => (exceptOk? p.2).map fun v => (p.1, v)) := by
  intro schema
  induction schema with
  | nil => intro _; exact List.Forall₂.nil
  | cons d ds ih =>
    intro hall
    have hd := hall d (List.mem_cons_self d ds)
    rw [fieldResults, List.map_cons, List.filterMap_cons]
    cases he : createCleanedValue env d (kwargs.lookup d.key) with
    | error e => rw [he] at hd; simp [exceptOk?] at hd
    | ok v =>
      simp only [he, exceptOk?, Option.map_some]
      exact List.Forall₂.cons ⟨rfl, he⟩
        (ih fun x hx => hall x (List.mem_cons_of_mem d hx))

theorem mkRecord_ok {env : Env} {cn : String} {schema : List FieldDefinition}
    {kwargs : List (String × Str)} {r : RecordType}
    (h : mkRecord env cn schema kwargs = .ok r) :
    recordSizeOf schema = RECORD_SIZE ∧
    FieldsSpec env kwargs schema r.fields := by
  unfold mkRecord at h
  split at h
  · cases h
  · rename_i hsize
    split at h
    · cases h
    · split at h
      · cases h
      · rename_i hfail
        cases h
        refine ⟨by omega, ?_⟩
        apply forall₂_of_all_ok
        intro d hd
        by_contra hno
        have hmem : (d.key, createCleanedValue env d (kwargs.lookup d.key)) ∈
            (fieldResults env schema kwargs).filter
              (fun p => (exceptOk? p.2).isNone) := by
          rw [List.mem_filter]
          constructor
          · exact List.mem_map_of_mem _ hd
          · simp only [Option.isNone_iff_eq_none]
            cases hv : exceptOk? (createCleanedValue env d (kwargs.lookup d.key)) with
            | none => rfl
            | some v => rw [hv] at hno; simp at hno
        have hne : failedFieldKeys env schema kwargs ≠ [] := by
          intro hnil
          unfold failedFieldKeys at hnil
          rw [List.map_eq_nil_iff] at hnil
          rw [hnil] at hmem
          cases hmem
        have hempty : (failedFieldKeys env schema kwargs).isEmpty = true := by
          cases hbe : (failedFieldKeys env schema kwargs).isEmpty with
          | true => rfl
          | false => simp [hbe] at hfail
        rw [List.isEmpty_iff] at hempty
        exact hne hempty

theorem fieldsSpec_lengths {env : Env} {kwargs : List (String × Str)}
    {schema : List FieldDefinition} {fields : List (String × Str)}
    (hpos : ∀ d ∈ schema, 0 < d.length)
    (hf : FieldsSpec env kwargs schema fields) :
    (fields.map Prod.snd).map List.length = schema.map (·.length) := by
  induction hf with
  | nil => rfl
  | @cons d p ds ps hd _ ih =>
    simp only [List.map_cons]
    rw [createCleanedValue_ok_length (hpos d (List.mem_cons_self d ds)) hd.2]
    have := ih fun x hx => hpos x (List.mem_cons_of_mem d hx)
    rw [this]

theorem renderRecordLine_length_of_mkRecord {env : Env} {cn : String}
    {schema : List FieldDefinition} {kwargs : List (String × Str)} {r : RecordType}
    (hpos : ∀ d ∈ schema, 0 < d.length)
    (h : mkRecord env cn schema kwargs = .ok r) :
    (renderRecordLine r).length = RECORD_SIZE := by
  obtain ⟨hsum, hf⟩ := mkRecord_ok h
  unfold renderRecordLine
  rw [List.length_flatten]
  rw [fieldsSpec_lengths hpos hf]
  exact hsum

/-! ## Lemmas: splitting and joining lines -/

theorem splitNl_ne_nil (s : Str) : splitNl s ≠ [] := by
  cases s with
  | nil => simp [splitNl]
  | cons c rest =>
    rw [splitNl]
    split
    · simp
    · split <;> simp

theorem splitNl_cons_newline (rest : Str) :
    splitNl ('\n' :: rest) = [] :: splitNl rest := by
  rw [splitNl]
  match hs : splitNl rest with
  | [] => exact absurd hs (splitNl_ne_nil rest)
  | first :: others => simp

theorem splitNl_cons_other {c : Char} (hc : c ≠ '\n') (rest : Str) :
    splitNl (c :: rest) = (c :: (splitNl rest).headI) :: (splitNl rest).tail := by
  rw [splitNl]
  match hs : splitNl rest with
  | [] => exact absurd hs (splitNl_ne_nil rest)
  | first :: others => simp [hc]

theorem splitNl_append_newline {x : Str} (hx : x.contains '\n' = false) (rest : Str) :
    splitNl (x ++ '\n' :: rest) = x :: splitNl rest := by
  induction x with
  | nil => simpa using splitNl_cons_newline rest
  | cons c x' ih =>
    rw [List.contains_cons] at hx
    simp only [Bool.or_eq_false_iff] at hx
    have hc : c ≠ '\n' := by
      intro hcc
      subst hcc
      simp at hx
    rw [List.cons_append, splitNl_cons_other hc, ih hx.2]
    simp

theorem splitNl_join {ls : List Str} (h : ∀ l ∈ ls, l.contains '\n' = false)
    (hne : ls ≠ []) :
    splitNl (joinWith ['\n'] ls ++ ['\n']) = ls ++ [[]] := by
  induction ls with
  | nil => exact absurd rfl hne
  | cons x xs ih =>
    cases xs with
    | nil =>
      rw [joinWith]
      rw [splitNl_append_newline (h x (List.mem_cons_self x [])) []]
      rfl
    | cons y ys =>
      rw [joinWith, List.append_assoc, List.append_assoc]
      have : ('\n' :: ([] : Str)) ++ (joinWith ['\n'] (y :: ys) ++ ['\n']) =
          '\n' :: (joinWith ['\n'] (y :: ys) ++ ['\n']) := rfl
      rw [this, splitNl_append_newline (h x (List.mem_cons_self x (y :: ys)))]
      rw [ih (fun l hl => h l (List.mem_cons_of_mem x hl)) (by simp)]
      rfl

theorem joinWith_cons_cons (sep x y : Str) (rest : List Str) :
    joinWith sep (x :: y :: rest) = x ++ sep ++ joinWith sep (y :: rest) := rfl

theorem joinWith_concat (sep : Str) {xs : List Str} (hne : xs ≠ []) (y : Str) :
    joinWith sep (xs ++ [y]) = joinWith sep xs ++ sep ++ y := by
  induction xs with
  | nil => exact absurd rfl hne
  | cons x xs' ih =>
    cases xs' with
    | nil => simp [joinWith]
    | cons z zs =>
      rw [show (x :: z :: zs) ++ [y] = x :: ((z :: zs) ++ [y]) from rfl]
      rw [show (z :: zs) ++ [y] = z :: (zs ++ [y]) from rfl]
      rw [joinWith_cons_cons]
      rw [show z :: (zs ++ [y]) = (z :: zs) ++ [y] from rfl]
      rw [ih (by simp), joinWith_cons_cons]
      simp [List.append_assoc]

theorem joinWith_replicate_append (sep f : Str) {ls : List Str} (hne : ls ≠ [])
    (k : Nat) :
    joinWith sep (ls ++ List.replicate k f) =
      joinWith sep ls ++ (List.replicate k (sep ++ f)).flatten := by
  induction k with
  | zero => simp
  | succ j ih =>
    rw [List.replicate_succ' j f, ← List.append_assoc, joinWith_concat sep ?hne f]
    case hne =>
      intro hnil
      rcases List.append_eq_nil.mp hnil with ⟨h1, _⟩
      exact hne h1
    rw [ih, List.replicate_succ' j (sep ++ f), List.flatten_append]
    simp [List.append_assoc]

/-! ## Lemmas: the parser loop -/

open ACHFileContentsParser

theorem goodLine_spec {env : Env} {code : Char} {cn : String}
    {schema : List FieldDefinition} {line : Str}
    (h : goodLine env code cn schema line = true) :
    line.head? = some code ∧ line.contains '\n' = false ∧
    ∃ r, parsesTo env cn schema line r := by
  unfold goodLine at h
  simp only [Bool.and_eq_true] at h
  obtain ⟨⟨h1, h2⟩, h3⟩ := h
  refine ⟨beq_iff_eq.mp h1, by simpa using h2, ?_⟩
  unfold stableLine at h3
  split at h3
  · rename_i r heq
    exact ⟨r, heq, eq_of_beq h3⟩
  · cases h3

theorem linesToRecords_filler_tail (env : Env) (k : Nat) :
    linesToRecords env (List.replicate k fillerLine ++ [[]]) = .ok [] := by
  induction k with
  | zero =>
    rw [List.replicate_zero, List.nil_append, linesToRecords]
    rw [if_pos (by simp), linesToRecords]
  | succ j ih =>
    rw [List.replicate_succ, List.cons_append, linesToRecords]
    rw [if_pos (by simp), ih]

theorem linesToRecords_cons_record {env : Env} {line : Str} {rest : List Str}
    {r : RecordType} (hg : GoodParsedLine env line r) :
    linesToRecords env (line :: rest) =
      match linesToRecords env rest with
      | .ok rs => .ok (r :: rs)
      | .error e => .error e := by
  obtain ⟨code, cn, schema, hhead, hcode, hfill, _, hp⟩ := hg
  have hne : line ≠ [] := by
    intro hnil
    subst hnil
    cases hhead
  rw [linesToRecords, if_neg (by simp [hne, hfill])]
  simp only [hhead, hcode, hp.1]
  cases linesToRecords env rest <;> rfl

theorem linesToRecords_forall₂ {env : Env} {ls : List Str} {rs : List RecordType}
    (h : List.Forall₂ (GoodParsedLine env) ls rs)
    {tail : List Str} (ht : linesToRecords env tail = .ok []) :
    linesToRecords env (ls ++ tail) = .ok rs := by
  induction h with
  | nil => simpa using ht
  | @cons l r ls' rs' hlr _ ih =>
    rw [List.cons_append, linesToRecords_cons_record hlr, ih]

theorem parsesTo_code {env : Env} {cn : String} {d0 : FieldDefinition}
    {ds : List FieldDefinition} {line : Str} {r : RecordType}
    (hkey : d0.key = "record_type_code") (hlen : d0.length = 1)
    {c : Char} (hc : line.head? = some c)
    (hp : parsesTo env cn (d0 :: ds) line r) :
    CodedRecord c r := by
  obtain ⟨hparse, hrender⟩ := hp
  unfold ACHFileContentsParser.convertLineToRecordType at hparse
  obtain ⟨_, hf⟩ := mkRecord_ok hparse
  unfold FieldsSpec at hf
  rw [List.forall₂_cons_left_iff] at hf
  obtain ⟨⟨p1, p2⟩, ps, hp0, hps, hfields⟩ := hf
  obtain ⟨hpk, hpv⟩ := hp0
  simp only at hpk hpv
  have hplen : p2.length = 1 := by
    have h1 := createCleanedValue_ok_length (d := d0) (by omega) hpv
    omega
  obtain ⟨x, hx⟩ := List.length_eq_one.mp hplen
  subst hx
  have hline : line = x :: (ps.map Prod.snd).flatten := by
    rw [← hrender]
    unfold renderRecordLine
    rw [hfields]
    rfl
  have hxc : x = c := by
    rw [hline] at hc
    simpa using hc
  subst hxc
  unfold CodedRecord getFieldValue
  rw [hfields, hpk, hkey]
  simp [List.lookup]

/-! ## Lemmas: tree reassembly from the decoded record stream -/

theorem recordsToTxEntries_addendas {adds : List RecordType}
    (hadds : ∀ a ∈ adds, CodedRecord '7' a) :
    ∀ (rest : List RecordType) (cur : RecordType) (acc : List RecordType),
    recordsToTxEntries (adds ++ rest) (some cur) acc =
      recordsToTxEntries rest (some cur) (acc ++ adds) := by
  induction adds with
  | nil => intro rest cur acc; simp
  | cons a as ih =>
    intro rest cur acc
    have h7 : getFieldValue a "record_type_code" = ['7'] :=
      hadds a (List.mem_cons_self a as)
    rw [List.cons_append, recordsToTxEntries, if_pos h7]
    rw [ih (fun x hx => hadds x (List.mem_cons_of_mem a hx)) rest cur (acc ++ [a])]
    rw [List.append_assoc]
    rfl

theorem recordsToTxEntries_some {es : List ACHTransactionEntry}
    (hcodes : ∀ e ∈ es, CodedRecord '6' e.entry ∧ ∀ a ∈ e.addendas, CodedRecord '7' a) :
    ∀ (e0 : RecordType) (adds0 : List RecordType),
    recordsToTxEntries (txsRecords es) (some e0) adds0 =
      .ok (⟨e0, adds0⟩ :: es) := by
  induction es with
  | nil => intro e0 adds0; rw [txsRecords]; simp [recordsToTxEntries]
  | cons e es' ih =>
    intro e0 adds0
    obtain ⟨hent, hadds⟩ := hcodes e (List.mem_cons_self e es')
    have hstep : txsRecords (e :: es') =
        e.entry :: (e.addendas ++ txsRecords es') := by
      rw [txsRecords, List.map_cons, List.flatten_cons, txRecords]
      rfl
    rw [hstep, recordsToTxEntries, if_neg (by rw [hent]; decide)]
    rw [recordsToTxEntries_addendas hadds (txsRecords es') e.entry []]
    rw [List.nil_append]
    rw [ih (fun x hx => hcodes x (List.mem_cons_of_mem e hx)) e.entry e.addendas]

theorem recordsToTxEntries_none {es : List ACHTransactionEntry} (hne : es ≠ [])
    (hcodes : ∀ e ∈ es, CodedRecord '6' e.entry ∧ ∀ a ∈ e.addendas, CodedRecord '7' a) :
    recordsToTxEntries (txsRecords es) none [] = .ok es := by
  cases es with
  | nil => exact absurd rfl hne
  | cons e es' =>
    obtain ⟨hent, hadds⟩ := hcodes e (List.mem_cons_self e es')
    have hstep : txsRecords (e :: es') =
        e.entry :: (e.addendas ++ txsRecords es') := by
      rw [txsRecords, List.map_cons, List.flatten_cons, txRecords]
      rfl
    rw [hstep, recordsToTxEntries, if_neg (by rw [hent]; decide)]
    rw [recordsToTxEntries_addendas hadds (txsRecords es') e.entry []]
    rw [List.nil_append]
    rw [recordsToTxEntries_some (fun x hx => hcodes x (List.mem_cons_of_mem e hx))
      e.entry e.addendas]

theorem recordsToBatches_nil (recalc : Bool) (currHeader : Option RecordType)
    (currList : List RecordType) (acc : List ACHBatch) :
    recordsToBatches recalc [] currHeader currList acc = .ok acc := rfl

theorem recordsToBatches_cons (recalc : Bool) (r : RecordType)
    (rest : List RecordType) (currHeader : Option RecordType)
    (currList : List RecordType) (acc : List ACHBatch) :
    recordsToBatches recalc (r :: rest) currHeader currList acc =
      if getFieldValue r "record_type_code" = ['5'] then
        recordsToBatches recalc rest (some r) [] acc
      else if getFieldValue r "record_type_code" = ['8'] then
        match currHeader with
        | none => .error .keyError
        | some h =>
          match recordsToTxEntries currList none [] with
          | .error e => .error e
          | .ok txs =>
            recordsToBatches recalc rest currHeader currList
              (acc ++ [if !recalc then
                  ACHBatch.setBatchControlRecord ⟨h, txs, none, false⟩ r
                else ⟨h, txs, none, false⟩])
      else
        match currHeader with
        | none => .error .keyError
        | some _ => recordsToBatches recalc rest currHeader (currList ++ [r]) acc := rfl

theorem recordsToBatches_txregion {rs : List RecordType}
    (hrs : ∀ r ∈ rs, getFieldValue r "record_type_code" ≠ ['5'] ∧
      getFieldValue r "record_type_code" ≠ ['8']) :
    ∀ (more : List RecordType) (h : RecordType) (currL : List RecordType)
      (acc : List ACHBatch),
    recordsToBatches false (rs ++ more) (some h) currL acc =
      recordsToBatches false more (some h) (currL ++ rs) acc := by
  induction rs with
  | nil => intro more h currL acc; simp
  | cons r rs' ih =>
    intro more h currL acc
    obtain ⟨h5, h8⟩ := hrs r (List.mem_cons_self r rs')
    rw [List.cons_append, recordsToBatches_cons, if_neg h5, if_neg h8]
    rw [ih (fun x hx => hrs x (List.mem_cons_of_mem r hx)) more h (currL ++ [r]) acc]
    rw [List.append_assoc]
    rfl

theorem txsRecords_codes {es : List ACHTransactionEntry}
    (hcodes : ∀ e ∈ es, CodedRecord '6' e.entry ∧ ∀ a ∈ e.addendas, CodedRecord '7' a) :
    ∀ r ∈ txsRecords es, getFieldValue r "record_type_code" ≠ ['5'] ∧
      getFieldValue r "record_type_code" ≠ ['8'] := by
  intro r hr
  unfold txsRecords at hr
  rw [List.mem_flatten] at hr
  obtain ⟨l, hl, hrl⟩ := hr
  rw [List.mem_map] at hl
  obtain ⟨e, he, hle⟩ := hl
  obtain ⟨hent, hadds⟩ := hcodes e he
  subst hle
  rw [txRecords] at hrl
  rcases List.mem_cons.mp hrl with h | h
  · subst h
    rw [hent]
    exact ⟨by decide, by decide⟩
  · rw [hadds r h]
    exact ⟨by decide, by decide⟩

theorem recordsToBatches_spec {bs : List ACHBatch}
    (hb : ∀ b ∈ bs, BatchShape b) :
    ∀ (currH : Option RecordType) (currL : List RecordType) (acc : List ACHBatch),
    recordsToBatches false ((bs.map batchRegionRecords).flatten) currH currL acc =
      .ok (acc ++ bs) := by
  induction bs with
  | nil => intro currH currL acc; rw [List.map_nil, List.flatten_nil, recordsToBatches_nil, List.append_nil]
  | cons b bs' ih =>
    intro currH currL acc
    obtain ⟨hhead, hne, hcodes, ⟨c, hc, hccode⟩, hrecalc⟩ := hb b (List.mem_cons_self b bs')
    rw [List.map_cons, List.flatten_cons]
    rw [batchRegionRecords, hc]
    simp only [Option.getD_some]
    have hhead5 : getFieldValue b.batchHeaderRecord "record_type_code" = ['5'] := hhead
    have hc8 : getFieldValue c "record_type_code" = ['8'] := hccode
    rw [List.cons_append, recordsToBatches_cons, if_pos hhead5]
    rw [List.append_assoc]
    rw [recordsToBatches_txregion (txsRecords_codes hcodes)]
    rw [List.nil_append]
    rw [show [c] ++ (bs'.map batchRegionRecords).flatten =
      c :: (bs'.map batchRegionRecords).flatten from rfl]
    rw [recordsToBatches_cons]
    rw [if_neg (by rw [hc8]; decide), if_pos hc8]
    rw [recordsToTxEntries_none hne hcodes]
    simp only [Bool.not_false, if_pos]
    have hbatch : ACHBatch.setBatchControlRecord
        ⟨b.batchHeaderRecord, b.transactions, none, false⟩ c = b := by
      unfold ACHBatch.setBatchControlRecord
      cases b with
      | mk hdr txs cache flag =>
        simp only at hc hrecalc
        simp [hc, hrecalc]
    rw [hbatch]
    rw [ih (fun x hx => hb x (List.mem_cons_of_mem b hx))]
    rw [List.append_assoc]
    rfl

theorem convertRecordsList_spec {fhRec fcRec : RecordType} {bs : List ACHBatch}
    (hb : ∀ b ∈ bs, BatchShape b) :
    ACHFileContentsParser.convertRecordsListToACHFileContents
      (fhRec :: ((bs.map batchRegionRecords).flatten ++ [fcRec])) false =
      .ok ⟨fhRec, bs, some fcRec, false⟩ := by
  rw [ACHFileContentsParser.convertRecordsListToACHFileContents]
  have hdrop : ((fhRec :: ((bs.map batchRegionRecords).flatten ++ [fcRec])).drop 1).dropLast
      = (bs.map batchRegionRecords).flatten := by
    simp
  rw [hdrop, recordsToBatches_spec hb none [] []]
  have hlast : (fhRec :: ((bs.map batchRegionRecords).flatten ++ [fcRec])).getLast? =
      some fcRec := by
    rw [show fhRec :: ((bs.map batchRegionRecords).flatten ++ [fcRec]) =
      (fhRec :: (bs.map batchRegionRecords).flatten) ++ [fcRec] from rfl]
    rw [List.getLast?_concat]
  rw [hlast]
  rfl

/-! ## Lemmas: from well-formed input to the parsed tree -/

theorem exists_forall₂ {α β : Type} {P : α → β → Prop} :
    ∀ {ls : List α}, (∀ l ∈ ls, ∃ r, P l r) → ∃ rs, List.Forall₂ P ls rs := by
  intro ls
  induction ls with
  | nil => exact fun _ => ⟨[], List.Forall₂.nil⟩
  | cons x xs ih =>
    intro h
    obtain ⟨r, hr⟩ := h x (List.mem_cons_self x xs)
    obtain ⟨rs, hrs⟩ := ih fun l hl => h l (List.mem_cons_of_mem x hl)
    exact ⟨r :: rs, List.Forall₂.cons hr hrs⟩

theorem forall₂_right_mem {α β : Type} {R : α → β → Prop} {P : β → Prop}
    {ls : List α} {rs : List β} (h : List.Forall₂ R ls rs)
    (himp : ∀ a b, R a b → P b) : ∀ b ∈ rs, P b := by
  induction h with
  | nil => intro b hb; cases hb
  | @cons a b as bs hab _ ih =>
    intro x hx
    rcases List.mem_cons.mp hx with h1 | h1
    · subst h1; exact himp a x hab
    · exact ih x h1

theorem forall₂_flatten {α β γ δ : Type} {R : γ → δ → Prop} {f : α → List γ}
    {g : β → List δ} {ls : List α} {rs : List β}
    (h : List.Forall₂ (fun a b => List.Forall₂ R (f a) (g b)) ls rs) :
    List.Forall₂ R (ls.map f).flatten (rs.map g).flatten := by
  induction h with
  | nil => exact List.Forall₂.nil
  | @cons a b as bs hab _ ih =>
    rw [List.map_cons, List.map_cons, List.flatten_cons, List.flatten_cons]
    exact List.rel_append hab ih

theorem ne_fillerLine_of_head {line : Str} {code : Char}
    (hhead : line.head? = some code) (hc : code ≠ '9') : line ≠ fillerLine := by
  intro h
  subst h
  rw [show fillerLine.head? = some '9' from rfl] at hhead
  exact hc (Option.some.inj hhead).symm

theorem goodLine_toGPL {env : Env} {code : Char} {cn : String}
    {schema : List FieldDefinition} {line : Str}
    (h : goodLine env code cn schema line = true)
    (hcode : getRecordTypeFromRecordTypeCode code = some (cn, schema))
    (hfill : line ≠ fillerLine)
    (hd0 : ∃ d0 ds, schema = d0 :: ds ∧ d0.key = "record_type_code" ∧ d0.length = 1) :
    ∃ r, GoodParsedLine env line r ∧ parsesTo env cn schema line r ∧
      CodedRecord code r := by
  obtain ⟨hhead, hnl, r, hp⟩ := goodLine_spec h
  obtain ⟨d0, ds, hs, hk, hl⟩ := hd0
  subst hs
  exact ⟨r, ⟨code, cn, d0 :: ds, hhead, hcode, hfill, hnl, hp⟩, hp,
    parsesTo_code hk hl hhead hp⟩

theorem wfTx_parse {env : Env} {t : WFTx} (h : WFTx.ok env t = true) :
    ∃ e : ACHTransactionEntry, TxRel env t e ∧
      List.Forall₂ (GoodParsedLine env) t.lines (txRecords e) ∧
      CodedRecord '6' e.entry ∧ (∀ a ∈ e.addendas, CodedRecord '7' a) := by
  unfold WFTx.ok at h
  simp only [Bool.and_eq_true, List.all_eq_true] at h
  obtain ⟨hent, hadds⟩ := h
  obtain ⟨er, hgplE, hpE, hcodeE⟩ := goodLine_toGPL hent rfl
    (ne_fillerLine_of_head (goodLine_spec hent).1 (by decide))
    ⟨_, _, rfl, rfl, rfl⟩
  obtain ⟨rs, hrs⟩ := exists_forall₂
    (P := fun l r => GoodParsedLine env l r ∧
      parsesTo env "AddendaRecordType" addendaFieldDefs l r ∧ CodedRecord '7' r)
    (fun l hl => goodLine_toGPL (hadds l hl) rfl
      (ne_fillerLine_of_head (goodLine_spec (hadds l hl)).1 (by decide))
      ⟨_, _, rfl, rfl, rfl⟩)
  refine ⟨⟨er, rs⟩,
    ⟨hpE, List.Forall₂.imp (fun a b hab => hab.2.1) hrs⟩, ?_, hcodeE, ?_⟩
  · exact List.Forall₂.cons hgplE (List.Forall₂.imp (fun a b hab => hab.1) hrs)
  · exact forall₂_right_mem hrs fun a b hab => hab.2.2

theorem wfBatch_parse {env : Env} {wb : WFBatch} (h : WFBatch.ok env wb = true) :
    ∃ b : ACHBatch, BatchRel env wb b ∧
      List.Forall₂ (GoodParsedLine env) wb.lines (batchRegionRecords b) ∧
      BatchShape b := by
  unfold WFBatch.ok at h
  simp only [Bool.and_eq_true, List.all_eq_true] at h
  obtain ⟨⟨⟨hh, hne⟩, htxs⟩, hctl⟩ := h
  obtain ⟨hr, hgplH, hpH, hcodeH⟩ := goodLine_toGPL hh rfl
    (ne_fillerLine_of_head (goodLine_spec hh).1 (by decide))
    ⟨_, _, rfl, rfl, rfl⟩
  obtain ⟨es, hes⟩ := exists_forall₂
    (P := fun t e => TxRel env t e ∧
      List.Forall₂ (GoodParsedLine env) (WFTx.lines t) (txRecords e) ∧
      CodedRecord '6' e.entry ∧ (∀ a ∈ e.addendas, CodedRecord '7' a))
    (fun t ht => wfTx_parse (htxs t ht))
  obtain ⟨cr, hgplC, hpC, hcodeC⟩ := goodLine_toGPL hctl rfl
    (ne_fillerLine_of_head (goodLine_spec hctl).1 (by decide))
    ⟨_, _, rfl, rfl, rfl⟩
  refine ⟨⟨hr, es, some cr, false⟩,
    ⟨hpH, List.Forall₂.imp (fun a b hab => hab.1) hes, ⟨cr, hpC, rfl⟩, rfl⟩, ?_, ?_⟩
  · show List.Forall₂ (GoodParsedLine env)
      (wb.headerLine :: ((wb.txs.map WFTx.lines).flatten ++ [wb.controlLine]))
      (hr :: (txsRecords es ++ [cr]))
    refine List.Forall₂.cons hgplH (List.rel_append ?_ ?_)
    · exact forall₂_flatten (List.Forall₂.imp (fun a b hab => hab.2.1) hes)
    · exact List.Forall₂.cons hgplC List.Forall₂.nil
  · refine ⟨hcodeH, ?_, ?_, ⟨cr, rfl, hcodeC⟩, rfl⟩
    · show es ≠ []
      intro hnil
      have hlen := List.Forall₂.length_eq hes
      rw [hnil, List.length_nil] at hlen
      have htx0 : wb.txs = [] := List.length_eq_zero.mp hlen
      rw [htx0] at hne
      simp at hne
    · show ∀ e ∈ es, CodedRecord '6' e.entry ∧ ∀ a ∈ e.addendas, CodedRecord '7' a
      exact forall₂_right_mem hes fun a b hab => ⟨hab.2.2.1, hab.2.2.2⟩

theorem forall₂_left_mem {α β : Type} {R : α → β → Prop} {P : α → Prop}
    {ls : List α} {rs : List β} (h : List.Forall₂ R ls rs)
    (himp : ∀ a b, R a b → P a) : ∀ a ∈ ls, P a := by
  induction h with
  | nil => intro a ha; cases ha
  | @cons a b as bs hab _ ih =>
    intro x hx
    rcases List.mem_cons.mp hx with h1 | h1
    · subst h1; exact himp x b hab
    · exact ih x h1

theorem wfFile_parses {env : Env} {w : WFFile} (h : WFFile.ok env w = true) :
    ∃ f : ACHFileContents,
      ACHFileContentsParser.processACHFileContents env w.text = .ok f ∧
      FileRel env w f := by
  unfold WFFile.ok at h
  simp only [Bool.and_eq_true, List.all_eq_true] at h
  obtain ⟨⟨⟨hfh, hbs⟩, hfc⟩, hfcfill⟩ := h
  obtain ⟨fhr, hgplF, hpF, _⟩ := goodLine_toGPL hfh rfl
    (ne_fillerLine_of_head (goodLine_spec hfh).1 (by decide))
    ⟨_, _, rfl, rfl, rfl⟩
  obtain ⟨bs, hbsr⟩ := exists_forall₂
    (P := fun wb b => BatchRel env wb b ∧
      List.Forall₂ (GoodParsedLine env) (WFBatch.lines wb) (batchRegionRecords b) ∧
      BatchShape b)
    (fun wb hwb => wfBatch_parse (hbs wb hwb))
  have hfcne : w.controlLine ≠ fillerLine := by
    intro heq
    rw [heq] at hfcfill
    simp at hfcfill
  obtain ⟨fcr, hgplC, hpC, _⟩ := goodLine_toGPL hfc rfl hfcne ⟨_, _, rfl, rfl, rfl⟩
  have hGPL : List.Forall₂ (GoodParsedLine env) w.recordLines
      (fhr :: ((bs.map batchRegionRecords).flatten ++ [fcr])) := by
    refine List.Forall₂.cons hgplF
      (List.rel_append ?_ (List.Forall₂.cons hgplC List.Forall₂.nil))
    exact forall₂_flatten (List.Forall₂.imp (fun a b hab => hab.2.1) hbsr)
  have hnl : ∀ l ∈ w.recordLines ++ List.replicate w.padCount fillerLine,
      l.contains '\n' = false := by
    intro l hl
    rcases List.mem_append.mp hl with h1 | h1
    · exact forall₂_left_mem hGPL
        (fun a b hab => hab.choose_spec.choose_spec.choose_spec.2.2.2.1) l h1
    · rw [List.eq_of_mem_replicate h1]; decide
  have hsplit : splitNl w.text =
      (w.recordLines ++ List.replicate w.padCount fillerLine) ++ [[]] := by
    unfold WFFile.text
    refine splitNl_join hnl ?_
    rw [WFFile.recordLines]
    simp
  have hrecords : ACHFileContentsParser.convertFileStringToRecordsList env w.text =
      .ok (fhr :: ((bs.map batchRegionRecords).flatten ++ [fcr])) := by
    unfold ACHFileContentsParser.convertFileStringToRecordsList
    rw [hsplit, List.append_assoc]
    exact linesToRecords_forall₂ hGPL (linesToRecords_filler_tail env w.padCount)
  refine ⟨⟨fhr, bs, some fcr, false⟩, ?_, ?_⟩
  · unfold ACHFileContentsParser.processACHFileContents
    rw [hrecords]
    exact convertRecordsList_spec (forall₂_right_mem hbsr fun a b hab => hab.2.2)
  · exact ⟨hpF, List.Forall₂.imp (fun a b hab => hab.1) hbsr, ⟨fcr, hpC, rfl⟩, rfl⟩

/-! ## Lemmas: rendering the parsed tree back to text -/

theorem forall₂_map_eq {α β γ : Type} {R : α → β → Prop} {f : α → γ} {g : β → γ}
    {ls : List α} {rs : List β} (h : List.Forall₂ R ls rs)
    (he : ∀ a b, R a b → g b = f a) : rs.map g = ls.map f := by
  induction h with
  | nil => rfl
  | @cons a b as bs hab _ ih =>
    rw [List.map_cons, List.map_cons, he a b hab, ih]

theorem txRel_render {env : Env} {t : WFTx} {e : ACHTransactionEntry}
    (h : TxRel env t e) : ACHTransactionEntry.getRenderedLineList e = t.lines := by
  obtain ⟨hp, hadds⟩ := h
  unfold ACHTransactionEntry.getRenderedLineList WFTx.lines
  rw [hp.2]
  have : e.addendas.map renderRecordLine = t.addendaLines.map id :=
    forall₂_map_eq hadds fun a b hab => hab.2
  rw [this, List.map_id]

theorem batchRel_render {env : Env} {wb : WFBatch} {b : ACHBatch}
    (h : BatchRel env wb b) :
    ACHBatch.getRenderedLineList env b = .ok (WFBatch.lines wb, b) := by
  obtain ⟨hph, htx, ⟨c, hpc, hcache⟩, hrecalc⟩ := h
  unfold ACHBatch.getRenderedLineList ACHBatch.readBatchControl
  rw [hcache, hrecalc]
  simp only [Bool.not_false, if_pos]
  rw [WFBatch.lines, hph.2, hpc.2]
  have : b.transactions.map ACHTransactionEntry.getRenderedLineList =
      wb.txs.map WFTx.lines :=
    forall₂_map_eq htx fun a b hab => txRel_render hab
  rw [this]

theorem renderBatches_of_rel {env : Env} {wbs : List WFBatch} {bs : List ACHBatch}
    (h : List.Forall₂ (BatchRel env) wbs bs) :
    ACHFileContents.renderBatches env bs =
      .ok ((wbs.map WFBatch.lines).flatten, bs) := by
  induction h with
  | nil => rfl
  | @cons wb b wbs' bs' hab _ ih =>
    rw [ACHFileContents.renderBatches, batchRel_render hab, ih]
    rw [List.map_cons, List.flatten_cons]

theorem fileRel_lines {env : Env} {w : WFFile} {f : ACHFileContents}
    (hrel : FileRel env w f) :
    ACHFileContents.getRenderedLineList env f = .ok (w.recordLines, f) := by
  obtain ⟨hph, hbs, ⟨c, hpc, hcache⟩, hrecalc⟩ := hrel
  unfold ACHFileContents.getRenderedLineList
  rw [renderBatches_of_rel hbs]
  have hread : ACHFileContents.readFileControl env
      { f with batches := f.batches } = .ok (c, f) := by
    show ACHFileContents.readFileControl env f = .ok (c, f)
    unfold ACHFileContents.readFileControl
    rw [hcache, hrecalc]
    simp only [Bool.not_false, if_pos]
  dsimp only
  rw [hread]
  dsimp only
  rw [WFFile.recordLines, hph.2, hpc.2]
  rfl

theorem fileRel_render {env : Env} {w : WFFile} {f : ACHFileContents}
    (hrel : FileRel env w f) :
    ACHFileContents.renderFileContents env f ['\n'] ['\n'] = .ok (WFFile.text w, f) := by
  unfold ACHFileContents.renderFileContents
  rw [fileRel_lines hrel]
  dsimp only
  unfold WFFile.text WFFile.padCount
  have hne : w.recordLines ≠ [] := by rw [WFFile.recordLines]; simp
  by_cases horphan : w.recordLines.length % FILE_HEADER_BLOCKING_FACTOR = 0
  · rw [if_neg (by omega)]
    rw [horphan]
    simp only [Nat.sub_zero, Nat.mod_self, List.replicate_zero, List.append_nil]
  · rw [if_pos horphan]
    have hlt : w.recordLines.length % FILE_HEADER_BLOCKING_FACTOR <
        FILE_HEADER_BLOCKING_FACTOR := Nat.mod_lt _ (by decide)
    have hmod : (FILE_HEADER_BLOCKING_FACTOR -
        w.recordLines.length % FILE_HEADER_BLOCKING_FACTOR) %
        FILE_HEADER_BLOCKING_FACTOR =
        FILE_HEADER_BLOCKING_FACTOR -
          w.recordLines.length % FILE_HEADER_BLOCKING_FACTOR := by
      apply Nat.mod_eq_of_lt
      omega
    rw [hmod]
    rw [joinWith_replicate_append ['\n'] fillerLine hne]

/-! ## The frozen claims -/

/-- C1: For every well-formed NACHA input text (94-character stable record
lines joined by newlines, blocked with `9`-filler padding lines to a
multiple of the blocking factor, trailing newline), parsing the text into an
`ACHFileContents` with control records attached verbatim and then rendering
it with the default line break and terminator yields a string equal to the
original text. -/
theorem C1_parse_render_round_trip (env : Env) (w : WFFile)
    (h : WFFile.ok env w = true) :
    ∃ f : ACHFileContents,
      ACHFileContentsParser.processACHFileContents env (WFFile.text w) = .ok f ∧
      ACHFileContents.renderFileContents env f ['\n'] ['\n'] =
        .ok (WFFile.text w, f) := by
  obtain ⟨f, hp, hrel⟩ := wfFile_parses h
  exact ⟨f, hp, fileRel_render hrel⟩

/-- Witness for C1 at a concrete six-line file. -/
theorem C1_witness : WFFile.ok env0 wfFileW = true ∧
    ∃ f : ACHFileContents,
      ACHFileContentsParser.processACHFileContents env0 (WFFile.text wfFileW) = .ok f ∧
      ACHFileContents.renderFileContents env0 f ['\n'] ['\n'] =
        .ok (WFFile.text wfFileW, f) :=
  ⟨by decide, C1_parse_render_round_trip env0 wfFileW (by decide)⟩

theorem getRenderedLineList_ne_nil {env : Env} {f f' : ACHFileContents}
    {ls : List Str} (h : ACHFileContents.getRenderedLineList env f = .ok (ls, f')) :
    ls ≠ [] := by
  unfold ACHFileContents.getRenderedLineList at h
  cases hrb : ACHFileContents.renderBatches env f.batches with
  | error e => rw [hrb] at h; cases h
  | ok p =>
    rw [hrb] at h
    dsimp only at h
    cases hrf : ACHFileContents.readFileControl env { f with batches := p.2 } with
    | error e => rw [hrf] at h; cases h
    | ok q =>
      rw [hrf] at h
      dsimp only at h
      cases h
      simp

/-- C4: For every tree, if the number of rendered record lines is not a
multiple of the blocking factor (10), `render_file_contents` appends filler
lines (each the character 9 repeated to the record width) until the count
reaches the next multiple, and appends none when the count is already a
multiple. -/
theorem C4_render_padding (env : Env) (f f' : ACHFileContents) (ls : List Str)
    (lineBreak endStr : Str)
    (h : ACHFileContents.getRenderedLineList env f = .ok (ls, f')) :
    ACHFileContents.renderFileContents env f lineBreak endStr =
      .ok (joinWith lineBreak (ls ++ List.replicate
        ((FILE_HEADER_BLOCKING_FACTOR - ls.length % FILE_HEADER_BLOCKING_FACTOR) %
          FILE_HEADER_BLOCKING_FACTOR) fillerLine) ++ endStr, f') ∧
    (ls.length % FILE_HEADER_BLOCKING_FACTOR = 0 →
      ACHFileContents.renderFileContents env f lineBreak endStr =
        .ok (joinWith lineBreak ls ++ endStr, f')) := by
  have hne : ls ≠ [] := getRenderedLineList_ne_nil h
  have hmain : ACHFileContents.renderFileContents env f lineBreak endStr =
      .ok (joinWith lineBreak (ls ++ List.replicate
        ((FILE_HEADER_BLOCKING_FACTOR - ls.length % FILE_HEADER_BLOCKING_FACTOR) %
          FILE_HEADER_BLOCKING_FACTOR) fillerLine) ++ endStr, f') := by
    unfold ACHFileContents.renderFileContents
    rw [h]
    dsimp only
    by_cases horphan : ls.length % FILE_HEADER_BLOCKING_FACTOR = 0
    · rw [if_neg (by omega), horphan]
      simp only [Nat.sub_zero, Nat.mod_self, List.replicate_zero, List.append_nil]
    · rw [if_pos horphan]
      have hlt : ls.length % FILE_HEADER_BLOCKING_FACTOR <
          FILE_HEADER_BLOCKING_FACTOR := Nat.mod_lt _ (by decide)
      rw [Nat.mod_eq_of_lt
        (show FILE_HEADER_BLOCKING_FACTOR - ls.length % FILE_HEADER_BLOCKING_FACTOR <
          FILE_HEADER_BLOCKING_FACTOR by omega)]
      rw [joinWith_replicate_append lineBreak fillerLine hne]
  refine ⟨hmain, fun horphan => ?_⟩
  rw [hmain, horphan]
  simp only [Nat.sub_zero, Nat.mod_self, List.replicate_zero, List.append_nil]

/-- Witness for C4 at a concrete three-line tree. -/
theorem C4_witness :
    ACHFileContents.renderFileContents env0 smallFile ['\n'] ['\n'] =
      .ok (joinWith ['\n'] (smallRenderPair.1 ++ List.replicate
        ((FILE_HEADER_BLOCKING_FACTOR -
          smallRenderPair.1.length % FILE_HEADER_BLOCKING_FACTOR) %
          FILE_HEADER_BLOCKING_FACTOR) fillerLine) ++ ['\n'], smallRenderPair.2) :=
  (C4_render_padding env0 smallFile smallRenderPair.2 smallRenderPair.1
    ['\n'] ['\n'] (by rfl)).1

/-- C5: Every record successfully constructed against one of the six
concrete schemas renders to a line of exactly the declared record size
(94); more generally, every successfully constructed field's cleaned value
has exactly its definition's declared width (positive by the data-model
invariant), regardless of the raw input's length. -/
theorem C5_width_invariant :
    (∀ (env : Env) (cn : String) (schema : List FieldDefinition)
      (kwargs : List (String × Str)) (r : RecordType),
      (cn, schema) ∈ sixSchemas → mkRecord env cn schema kwargs = .ok r →
      (renderRecordLine r).length = RECORD_SIZE) ∧
    (∀ (env : Env) (d : FieldDefinition) (v : Option Str) (s : Str),
      0 < d.length → createCleanedValue env d v = .ok s → s.length = d.length) := by
  constructor
  · intro env cn schema kwargs r hmem h
    refine renderRecordLine_length_of_mkRecord ?_ h
    have hall : ∀ p ∈ sixSchemas, ∀ d ∈ p.2, 0 < d.length := by decide
    exact fun d hd => hall (cn, schema) hmem d hd
  · intro env d v s hl h
    exact createCleanedValue_ok_length hl h

/-- Witness for C5 at a concrete file control record. -/
theorem C5_witness : (renderRecordLine fcRecordW).length = RECORD_SIZE :=
  C5_width_invariant.1 env0 "FileControlRecordType" fileControlFieldDefs
    fcKwargsW fcRecordW (by decide) (by rfl)

/-- C7: Over the transaction codes 22, 23, 27, 28, 32, 33, 37, 38:
`is_credit` holds iff the last digit is 2 or 3, `is_debit` iff it is 7 or 8
(and the two are mutually exclusive and exhaustive), `is_prenote` iff it is
3 or 8, `is_checking` iff the tens digit is 2, and `is_savings` iff the
tens digit is 3. -/
theorem C7_transaction_code_classification :
    ∀ n ∈ [22, 23, 27, 28, 32, 33, 37, 38],
      (isCreditCode n = true ↔ (n % 10 = 2 ∨ n % 10 = 3)) ∧
      (isDebitCode n = true ↔ (n % 10 = 7 ∨ n % 10 = 8)) ∧
      (isCreditCode n = true ↔ isDebitCode n = false) ∧
      (isPrenoteCode n = true ↔ (n % 10 = 3 ∨ n % 10 = 8)) ∧
      (isCheckingCode n = true ↔ n / 10 = 2) ∧
      (isSavingsCode n = true ↔ n / 10 = 3) := by decide

theorem pyRegexMatch_alphaNum_hash {v : Str} (hv : '#' ∈ v) :
    pyRegexMatch .alphaNum v = false := by
  have hcore : ∀ (w : Str), '#' ∈ w → coreRegexMatch .alphaNum w = false := by
    intro w hw
    have hall : w.all isAlphaNumAllowed = false := by
      cases hb : w.all isAlphaNumAllowed with
      | false => rfl
      | true => exact absurd (List.all_eq_true.mp hb '#' hw) (by decide)
    unfold coreRegexMatch
    dsimp only
    rw [hall, Bool.and_false]
  unfold pyRegexMatch
  rw [hcore v hv, Bool.false_or]
  by_cases hd : '#' ∈ v.dropLast
  · rw [hcore _ hd, Bool.and_false]
  · have hne : v ≠ [] := List.ne_nil_of_mem hv
    have hlast : v.getLast hne = '#' := by
      have hmem := hv
      rw [← List.dropLast_append_getLast hne] at hmem
      rcases List.mem_append.mp hmem with h | h
      · exact absurd h hd
      · exact (List.mem_singleton.mp h).symm
    have hlast? : v.getLast? = some '#' := by
      rw [List.getLast?_eq_getLast v hne, hlast]
    rw [hlast?]
    simp

theorem doValidation_alphaNum_filter (v : Str) :
    doValidation .alphaNum (v.filter isAlphaNumAllowed) = true := by
  unfold doValidation
  cases hf : v.filter isAlphaNumAllowed with
  | nil => rfl
  | cons c cs =>
    have hall : (c :: cs).all isAlphaNumAllowed = true := by
      rw [← hf, List.all_eq_true]
      intro x hx
      exact (List.mem_filter.mp hx).2
    unfold pyRegexMatch coreRegexMatch
    simp [hall]

/-- C8: For every alphanumeric field and raw value containing the character
number sign: with auto-correction disabled for the field, constructing the
`Field` raises the value-mismatch error; with auto-correction enabled it is
constructed without error, the disallowed characters stripped, and the
cleaned value passes validation. -/
theorem C8_alphanumeric_hash (env : Env) (d : FieldDefinition) (v : Str)
    (ht : d.fieldType = .alphaNum) (hv : '#' ∈ v) :
    (shouldCorrectInput .alphaNum d.autoCorrectInput = false →
      createCleanedValue env d (some v) = .error (.valueMismatch v)) ∧
    (shouldCorrectInput .alphaNum d.autoCorrectInput = true →
      createCleanedValue env d (some v) =
        .ok (applyFixedLength .alphaNum (v.filter isAlphaNumAllowed) d.length) ∧
      doValidation .alphaNum (v.filter isAlphaNumAllowed) = true) := by
  constructor
  · intro hoff
    have hcorr : correctedValue env d (some v) = v := by
      unfold correctedValue
      rw [ht]
      show (if !shouldCorrectInput .alphaNum d.autoCorrectInput then
          resolveRawValue d (some v)
        else (resolveRawValue d (some v)).filter isAlphaNumAllowed) = v
      rw [hoff]
      rfl
    have hval : doValidation d.fieldType (correctedValue env d (some v)) = false := by
      rw [ht, hcorr]
      unfold doValidation
      dsimp only
      rw [pyRegexMatch_alphaNum_hash hv, Bool.false_or]
      cases v with
      | nil => cases hv
      | cons c cs => rfl
    unfold createCleanedValue
    rw [if_neg (by simp), if_neg (by rw [hval]; simp), hcorr]
  · intro hon
    have hcorr : correctedValue env d (some v) = v.filter isAlphaNumAllowed := by
      unfold correctedValue
      rw [ht]
      show (if !shouldCorrectInput .alphaNum d.autoCorrectInput then
          resolveRawValue d (some v)
        else (resolveRawValue d (some v)).filter isAlphaNumAllowed) = _
      rw [hon]
      rfl
    have hval : doValidation d.fieldType (correctedValue env d (some v)) = true := by
      rw [ht, hcorr]
      exact doValidation_alphaNum_filter v
    refine ⟨?_, doValidation_alphaNum_filter v⟩
    unfold createCleanedValue
    rw [if_neg (by simp), if_pos hval, hcorr, ht]

/-- Witness for C8 at a concrete field definition and value. -/
theorem C8_witness :
    createCleanedValue env0 alphaNoCorrectDef (some hashValueW) =
      .error (.valueMismatch hashValueW) ∧
    createCleanedValue env0 alphaCorrectDef (some hashValueW) =
      .ok (applyFixedLength .alphaNum (hashValueW.filter isAlphaNumAllowed)
        alphaCorrectDef.length) :=
  ⟨(C8_alphanumeric_hash env0 alphaNoCorrectDef hashValueW rfl (by decide)).1 (by decide),
   ((C8_alphanumeric_hash env0 alphaCorrectDef hashValueW rfl (by decide)).2 (by decide)).1⟩

theorem applyFixedLength_nil (t : FieldTypeTag) (len : Nat) :
    applyFixedLength t [] len = List.replicate len (paddingOf t) := by
  unfold applyFixedLength
  cases alignmentOf t with
  | LEFT =>
    rw [Alignment.align, Alignment.truncate]
    simp [List.take_replicate]
  | RIGHT =>
    rw [Alignment.align, Alignment.truncate]
    simp only [List.length_nil, Nat.sub_zero, List.append_nil]
    split
    · rfl
    · simp

/-- C10: validating the empty string never raises for any field type in the
catalog (a failed regex match is compared against an empty-string
fallback), and a `Field` given the explicit value of an empty string — even
for a required field, since the empty-required check only fires on an
absent value — is constructed without error and renders as pure padding of
the field's width. -/
theorem C10_empty_string_field :
    (∀ t : FieldTypeTag, doValidation t [] = true) ∧
    (∀ (env : Env) (d : FieldDefinition),
      createCleanedValue env d (some []) =
        .ok (List.replicate d.length (paddingOf d.fieldType))) := by
  have hval : ∀ t : FieldTypeTag, doValidation t [] = true := by
    intro t; cases t <;> rfl
  refine ⟨hval, fun env d => ?_⟩
  have hcorr : correctedValue env d (some []) = [] := by
    unfold correctedValue
    rw [show resolveRawValue d (some []) = [] from rfl]
    cases ht : d.fieldType with
    | integer => rfl
    | alphaNum =>
      show (if !shouldCorrectInput .alphaNum d.autoCorrectInput then ([] : Str)
        else List.filter isAlphaNumAllowed []) = []
      split <;> rfl
    | blankPaddedRoutingNumber =>
      show (if !shouldCorrectInput .blankPaddedRoutingNumber d.autoCorrectInput
          then ([] : Str)
        else if List.isEmpty ([] : Str) = true then []
        else if doValidation .blankPaddedRoutingNumber [] = true then []
        else if !(List.dropWhile isPySpace ([] : Str)).isEmpty &&
            (List.dropWhile isPySpace ([] : Str)).all isPyDigit then
          Alignment.RIGHT.align [] 9 '0'
        else []) = []
      split
      · rfl
      · rfl
    | date =>
      show (if !shouldCorrectInput .date d.autoCorrectInput ||
          doValidation .date [] then ([] : Str) else dateCorrectInput env []) = []
      rw [show doValidation .date [] = true from rfl, Bool.or_true]
      rfl
    | time =>
      show (if !shouldCorrectInput .time d.autoCorrectInput ||
          doValidation .time [] then ([] : Str) else timeCorrectInput env []) = []
      rw [show doValidation .time [] = true from rfl, Bool.or_true]
      rfl
  unfold createCleanedValue
  rw [if_neg (by simp), hcorr, if_pos (hval d.fieldType), applyFixedLength_nil]

/-! ## Lemmas: computed control records and their field values -/

theorem natToStr_isEmpty_false (n : Nat) : (natToStr n).isEmpty = false := by
  cases hn : natToStr n with
  | nil => exact absurd hn (natToStr_ne_nil n)
  | cons c cs => rfl

theorem doValidation_integer_natToStr (n : Nat) :
    doValidation .integer (natToStr n) = true := by
  unfold doValidation pyRegexMatch coreRegexMatch
  dsimp only
  rw [natToStr_isEmpty_false, List.all_eq_true.mpr (natToStr_digits n)]
  rfl

theorem integerField_value (env : Env) (d : FieldDefinition)
    (ht : d.fieldType = .integer) (n : Nat) :
    createCleanedValue env d (some (natToStr n)) =
      .ok (applyFixedLength .integer (natToStr n) d.length) := by
  have hcorr : correctedValue env d (some (natToStr n)) = natToStr n := by
    unfold correctedValue
    rw [ht]
    rfl
  unfold createCleanedValue
  rw [if_neg (by simp), hcorr, ht, if_pos (doValidation_integer_natToStr n)]

theorem fieldsSpec_getFieldValue {env : Env} {kwargs : List (String × Str)} :
    ∀ {schema : List FieldDefinition} {fields : List (String × Str)},
    FieldsSpec env kwargs schema fields →
    ∀ {key : String} {d : FieldDefinition},
    schema.find? (fun x => x.key == key) = some d →
    createCleanedValue env d (kwargs.lookup d.key) =
      .ok (getFieldValue ⟨fields⟩ key) := by
  intro schema fields h
  induction h with
  | nil => intro key d hf; cases hf
  | @cons d0 p ds ps h0 hrest ih =>
    intro key d hf
    obtain ⟨p1, p2⟩ := p
    obtain ⟨hpk, hpv⟩ := h0
    simp only at hpk hpv
    by_cases hk : (d0.key == key) = true
    · simp only [List.find?_cons, hk] at hf
      have hd : d = d0 := (Option.some.inj hf).symm
      subst hd
      have hkey : p1 = key := by rw [hpk]; exact eq_of_beq hk
      unfold getFieldValue
      rw [show List.lookup key ((p1, p2) :: ps) = some p2 by
        unfold List.lookup
        rw [show (key == p1) = true by rw [hkey]; exact beq_self_eq_true key]]
      exact hpv
    · have hk' : (d0.key == key) = false := by
        cases hkb : (d0.key == key) with
        | false => rfl
        | true => exact absurd hkb hk
      simp only [List.find?_cons, hk'] at hf
      have hkb : (key == p1) = false := by
        rw [hpk]
        cases hkb2 : (key == d0.key) with
        | false => rfl
        | true =>
          exact absurd (by rw [eq_of_beq hkb2]; exact beq_self_eq_true _) hk
      have hlk : List.lookup key ((p1, p2) :: ps) = List.lookup key ps := by
        conv =>
          lhs
          unfold List.lookup
        rw [hkb]
      have hgv : getFieldValue ⟨(p1, p2) :: ps⟩ key = getFieldValue ⟨ps⟩ key := by
        unfold getFieldValue
        rw [hlk]
      rw [hgv]
      exact ih hf

theorem mkRecord_integer_fieldValue {env : Env} {cn : String}
    {schema : List FieldDefinition} {kwargs : List (String × Str)} {r : RecordType}
    (key : String) (d : FieldDefinition) {n : Nat}
    (h : mkRecord env cn schema kwargs = .ok r)
    (hfind : schema.find? (fun x => x.key == key) = some d)
    (ht : d.fieldType = .integer)
    (hlook : kwargs.lookup d.key = some (natToStr n)) :
    getFieldValue r key = applyFixedLength .integer (natToStr n) d.length := by
  have hx := fieldsSpec_getFieldValue (mkRecord_ok h).2 hfind
  rw [hlook, integerField_value env d ht n] at hx
  exact (Except.ok.inj hx).symm

theorem pyIntNat_applyFixedLength_integer {n k : Nat} (hk : 0 < k)
    (hn : n < 10 ^ k) :
    pyIntNat (applyFixedLength .integer (natToStr n) k) = n := by
  rw [applyFixedLength_right_pad .integer rfl (natToStr_length_le hn hk)]
  exact pyIntNat_zeroPadded_natToStr _ n

/-- The four aggregate fields of a computed batch control record. -/
theorem computeBatchControl_fieldValues {env : Env} {b : ACHBatch} {c : RecordType}
    (h : ACHBatch.computeBatchControlRecord env b = .ok c) :
    getFieldValue c "entry_and_addenda_count" =
      applyFixedLength .integer (natToStr b.computeEntryAndAddendaCount) 6 ∧
    getFieldValue c "entry_hash" =
      applyFixedLength .integer (natToStr b.computeEntryHash) 10 ∧
    getFieldValue c "total_debit_amount" =
      applyFixedLength .integer (natToStr b.computeDebitTotal) 12 ∧
    getFieldValue c "total_credit_amount" =
      applyFixedLength .integer (natToStr b.computeCreditTotal) 12 := by
  unfold ACHBatch.computeBatchControlRecord at h
  exact ⟨mkRecord_integer_fieldValue "entry_and_addenda_count"
      ⟨"entry_and_addenda_count", "Entry and Addenda Count", .integer, 6, true, none, none⟩
      h rfl rfl rfl,
    mkRecord_integer_fieldValue "entry_hash"
      ⟨"entry_hash", "Entry Hash", .integer, 10, true, none, none⟩ h rfl rfl rfl,
    mkRecord_integer_fieldValue "total_debit_amount"
      ⟨"total_debit_amount", "Total Debit Amount", .integer, 12, true, none, none⟩
      h rfl rfl rfl,
    mkRecord_integer_fieldValue "total_credit_amount"
      ⟨"total_credit_amount", "Total Credit Amount", .integer, 12, true, none, none⟩
      h rfl rfl rfl⟩

theorem cache_self {b : ACHBatch} {c : RecordType}
    (h : b.batchControlRecordCache = some c) :
    { b with batchControlRecordCache := some c } = b := by
  cases b with
  | mk hdr txs cache flag =>
    simp only at h
    rw [← h]

theorem computeBatchControlRecord_cache (env : Env) (b : ACHBatch)
    (x : Option RecordType) :
    ACHBatch.computeBatchControlRecord env { b with batchControlRecordCache := x } =
      ACHBatch.computeBatchControlRecord env b := rfl

theorem readBatchControl_ok_spec {env : Env} {b : ACHBatch} {c : RecordType}
    {b' : ACHBatch} (h : ACHBatch.readBatchControl env b = .ok (c, b')) :
    ACHBatch.batchControlValue env b = .ok c ∧ b' = cacheBatchControl env b := by
  unfold ACHBatch.readBatchControl at h
  cases hc : b.batchControlRecordCache with
  | some c0 =>
    rw [hc] at h
    dsimp only at h
    split at h
    · rename_i hcond
      cases h
      have hval : ACHBatch.batchControlValue env b = .ok c := by
        unfold ACHBatch.batchControlValue
        rw [hc]
        dsimp only
        rw [if_pos hcond]
      refine ⟨hval, ?_⟩
      unfold cacheBatchControl batchControlValueD
      rw [hval]
      dsimp only
      exact (cache_self hc).symm
    · rename_i hcond
      cases hcomp : ACHBatch.computeBatchControlRecord env b with
      | error e => rw [hcomp] at h; cases h
      | ok r =>
        rw [hcomp] at h
        cases h
        have hval : ACHBatch.batchControlValue env b = .ok c := by
          unfold ACHBatch.batchControlValue
          rw [hc]
          dsimp only
          rw [if_neg hcond]
          exact hcomp
        refine ⟨hval, ?_⟩
        unfold cacheBatchControl batchControlValueD
        rw [hval]
  | none =>
    rw [hc] at h
    dsimp only at h
    cases hcomp : ACHBatch.computeBatchControlRecord env b with
    | error e => rw [hcomp] at h; cases h
    | ok r =>
      rw [hcomp] at h
      cases h
      have hval : ACHBatch.batchControlValue env b = .ok c := by
        unfold ACHBatch.batchControlValue
        rw [hc]
        exact hcomp
      refine ⟨hval, ?_⟩
      unfold cacheBatchControl batchControlValueD
      rw [hval]

theorem batchControlValue_of_stale {env : Env} {b : ACHBatch}
    (h : b.recalcBatchControl = true) :
    ACHBatch.batchControlValue env b = ACHBatch.computeBatchControlRecord env b := by
  unfold ACHBatch.batchControlValue
  cases hc : b.batchControlRecordCache with
  | some c0 => simp [h]
  | none => rfl

theorem batchControlValue_of_fresh {env : Env} {b : ACHBatch}
    (h : b.batchControlRecordCache = none) :
    ACHBatch.batchControlValue env b = ACHBatch.computeBatchControlRecord env b := by
  unfold ACHBatch.batchControlValue
  rw [h]

theorem batchControlValue_stable {env : Env} {b : ACHBatch} {c : RecordType}
    (h : ACHBatch.batchControlValue env b = .ok c) :
    ACHBatch.batchControlValue env (cacheBatchControl env b) = .ok c := by
  have hd : batchControlValueD env b = c := by unfold batchControlValueD; rw [h]
  unfold cacheBatchControl
  rw [hd]
  unfold ACHBatch.batchControlValue
  dsimp only
  by_cases hr : b.recalcBatchControl = true
  · rw [if_neg (by rw [hr]; decide)]
    rw [computeBatchControlRecord_cache]
    rw [← batchControlValue_of_stale hr]
    exact h
  · have hr' : b.recalcBatchControl = false := by
      cases hb : b.recalcBatchControl with
      | false => rfl
      | true => exact absurd hb hr
    rw [if_pos (by rw [hr']; decide)]

theorem batchControlValueD_stable {env : Env} {b : ACHBatch} {c : RecordType}
    (h : ACHBatch.batchControlValue env b = .ok c) :
    batchControlValueD env (cacheBatchControl env b) = batchControlValueD env b := by
  have h1 := batchControlValue_stable h
  unfold batchControlValueD
  rw [h1, h]

theorem cacheBatchControl_idem {env : Env} {b : ACHBatch} {c : RecordType}
    (h : ACHBatch.batchControlValue env b = .ok c) :
    cacheBatchControl env (cacheBatchControl env b) = cacheBatchControl env b := by
  have h2 := batchControlValueD_stable h
  show { cacheBatchControl env b with
      batchControlRecordCache :=
        some (batchControlValueD env (cacheBatchControl env b)) } =
    cacheBatchControl env b
  rw [h2]
  rfl

theorem readBatchField_values {env : Env} {key : String} :
    ∀ {bs : List ACHBatch} {vs : List Str} {bs' : List ACHBatch},
    ACHFileContents.readBatchField env key bs = .ok (vs, bs') →
    (∀ b ∈ bs, ∃ c, ACHBatch.batchControlValue env b = .ok c) ∧
    vs = bs.map (fun b => getFieldValue (batchControlValueD env b) key) ∧
    bs' = bs.map (cacheBatchControl env) := by
  intro bs
  induction bs with
  | nil =>
    intro vs bs' h
    cases h
    refine ⟨?_, rfl, rfl⟩
    intro b hb
    cases hb
  | cons b rest ih =>
    intro vs bs' h
    unfold ACHFileContents.readBatchField at h
    cases hrb : ACHBatch.readBatchControl env b with
    | error e => rw [hrb] at h; cases h
    | ok p =>
      obtain ⟨c0, b0⟩ := p
      rw [hrb] at h
      dsimp only at h
      cases hrest : ACHFileContents.readBatchField env key rest with
      | error e => rw [hrest] at h; cases h
      | ok q =>
        obtain ⟨vs0, bs0⟩ := q
        rw [hrest] at h
        dsimp only at h
        cases h
        obtain ⟨hval, hcache⟩ := readBatchControl_ok_spec hrb
        obtain ⟨hallr, hv, hb⟩ := ih hrest
        have hd : batchControlValueD env b = c0 := by
          unfold batchControlValueD
          rw [hval]
        refine ⟨?_, ?_, ?_⟩
        · intro x hx
          rcases List.mem_cons.mp hx with h1 | h1
          · subst h1; exact ⟨c0, hval⟩
          · exact hallr x h1
        · rw [List.map_cons, hd, hv]
        · rw [List.map_cons, ← hcache, hb]

theorem computeFileControlRecord_ok {env : Env} {f : ACHFileContents}
    {r : RecordType} {bsOut : List ACHBatch}
    (h : ACHFileContents.computeFileControlRecord env f = .ok (r, bsOut)) :
    (∀ b ∈ f.batches, ∃ c, ACHBatch.batchControlValue env b = .ok c) ∧
    mkRecord env "FileControlRecordType" fileControlFieldDefs [
      ("batch_count", natToStr f.batches.length),
      ("block_count", natToStr (ACHFileContents.computeBlockCount
        (ACHFileContents.computeLineCount
          (fileBatchFieldSum env "entry_and_addenda_count" f) f.batches.length))),
      ("entry_and_addenda_count",
        natToStr (fileBatchFieldSum env "entry_and_addenda_count" f)),
      ("entry_hash", natToStr (fileBatchFieldSum env "entry_hash" f)),
      ("total_credit_amount", natToStr (fileBatchFieldSum env "total_credit_amount" f)),
      ("total_debit_amount", natToStr (fileBatchFieldSum env "total_debit_amount" f))]
      = .ok r := by
  unfold ACHFileContents.computeFileControlRecord at h
  cases h1 : ACHFileContents.readBatchField env "total_debit_amount" f.batches with
  | error e => rw [h1] at h; cases h
  | ok p1 =>
    obtain ⟨vs1, bs1⟩ := p1
    rw [h1] at h
    dsimp only at h
    obtain ⟨hall, hv1, hb1⟩ := readBatchField_values h1
    cases h2 : ACHFileContents.readBatchField env "total_credit_amount" bs1 with
    | error e => rw [h2] at h; cases h
    | ok p2 =>
      obtain ⟨vs2, bs2⟩ := p2
      rw [h2] at h
      dsimp only at h
      obtain ⟨_, hv2, hb2⟩ := readBatchField_values h2
      have hv2' : vs2 = f.batches.map
          (fun b => getFieldValue (batchControlValueD env b) "total_credit_amount") := by
        rw [hv2, hb1, List.map_map]
        refine List.map_congr_left ?_
        intro b hb
        obtain ⟨c, hc⟩ := hall b hb
        show getFieldValue (batchControlValueD env (cacheBatchControl env b)) _ = _
        rw [batchControlValueD_stable hc]
      have hb2' : bs2 = f.batches.map (cacheBatchControl env) := by
        rw [hb2, hb1, List.map_map]
        refine List.map_congr_left ?_
        intro b hb
        obtain ⟨c, hc⟩ := hall b hb
        show cacheBatchControl env (cacheBatchControl env b) = cacheBatchControl env b
        exact cacheBatchControl_idem hc
      cases h3 : ACHFileContents.readBatchField env "entry_and_addenda_count" bs2 with
      | error e => rw [h3] at h; cases h
      | ok p3 =>
        obtain ⟨vs3, bs3⟩ := p3
        rw [h3] at h
        dsimp only at h
        obtain ⟨_, hv3, hb3⟩ := readBatchField_values h3
        have hv3' : vs3 = f.batches.map
            (fun b => getFieldValue (batchControlValueD env b) "entry_and_addenda_count") := by
          rw [hv3, hb2', List.map_map]
          refine List.map_congr_left ?_
          intro b hb
          obtain ⟨c, hc⟩ := hall b hb
          show getFieldValue (batchControlValueD env (cacheBatchControl env b)) _ = _
          rw [batchControlValueD_stable hc]
        have hb3' : bs3 = f.batches.map (cacheBatchControl env) := by
          rw [hb3, hb2', List.map_map]
          refine List.map_congr_left ?_
          intro b hb
          obtain ⟨c, hc⟩ := hall b hb
          show cacheBatchControl env (cacheBatchControl env b) = cacheBatchControl env b
          exact cacheBatchControl_idem hc
        cases h4 : ACHFileContents.readBatchField env "entry_hash" bs3 with
        | error e => rw [h4] at h; cases h
        | ok p4 =>
          obtain ⟨vs4, bs4⟩ := p4
          rw [h4] at h
          dsimp only at h
          obtain ⟨_, hv4, hb4⟩ := readBatchField_values h4
          have hv4' : vs4 = f.batches.map
              (fun b => getFieldValue (batchControlValueD env b) "entry_hash") := by
            rw [hv4, hb3', List.map_map]
            refine List.map_congr_left ?_
            intro b hb
            obtain ⟨c, hc⟩ := hall b hb
            show getFieldValue (batchControlValueD env (cacheBatchControl env b)) _ = _
            rw [batchControlValueD_stable hc]
          have hS1 : fileBatchFieldSum env "total_debit_amount" f =
              (vs1.map pyIntNat).sum := by
            rw [hv1, List.map_map]
            rfl
          have hS2 : fileBatchFieldSum env "total_credit_amount" f =
              (vs2.map pyIntNat).sum := by
            rw [hv2', List.map_map]
            rfl
          have hS3 : fileBatchFieldSum env "entry_and_addenda_count" f =
              (vs3.map pyIntNat).sum := by
            rw [hv3', List.map_map]
            rfl
          have hS4 : fileBatchFieldSum env "entry_hash" f =
              (vs4.map pyIntNat).sum := by
            rw [hv4', List.map_map]
            rfl
          refine ⟨hall, ?_⟩
          rw [hS1, hS2, hS3, hS4]
          cases hmk : mkRecord env "FileControlRecordType" fileControlFieldDefs [
            ("batch_count", natToStr f.batches.length),
            ("block_count", natToStr (ACHFileContents.computeBlockCount
              (ACHFileContents.computeLineCount
                (vs3.map pyIntNat).sum f.batches.length))),
            ("entry_and_addenda_count", natToStr (vs3.map pyIntNat).sum),
            ("entry_hash", natToStr (vs4.map pyIntNat).sum),
            ("total_credit_amount", natToStr (vs2.map pyIntNat).sum),
            ("total_debit_amount", natToStr (vs1.map pyIntNat).sum)] with
          | error e => rw [hmk] at h; cases h
          | ok r0 =>
            rw [hmk] at h
            cases h
            rfl

theorem computeFileControl_fieldValues {env : Env} {f : ACHFileContents}
    {r : RecordType} {bsOut : List ACHBatch}
    (h : ACHFileContents.computeFileControlRecord env f = .ok (r, bsOut)) :
    getFieldValue r "batch_count" =
      applyFixedLength .integer (natToStr f.batches.length) 6 ∧
    getFieldValue r "block_count" =
      applyFixedLength .integer (natToStr (ACHFileContents.computeBlockCount
        (ACHFileContents.computeLineCount
          (fileBatchFieldSum env "entry_and_addenda_count" f) f.batches.length))) 6 ∧
    getFieldValue r "entry_and_addenda_count" =
      applyFixedLength .integer
        (natToStr (fileBatchFieldSum env "entry_and_addenda_count" f)) 8 ∧
    getFieldValue r "entry_hash" =
      applyFixedLength .integer (natToStr (fileBatchFieldSum env "entry_hash" f)) 10 ∧
    getFieldValue r "total_debit_amount" =
      applyFixedLength .integer
        (natToStr (fileBatchFieldSum env "total_debit_amount" f)) 12 ∧
    getFieldValue r "total_credit_amount" =
      applyFixedLength .integer
        (natToStr (fileBatchFieldSum env "total_credit_amount" f)) 12 := by
  obtain ⟨-, hmk⟩ := computeFileControlRecord_ok h
  exact ⟨mkRecord_integer_fieldValue "batch_count"
      ⟨"batch_count", "Batch Count", .integer, 6, true, none, none⟩ hmk rfl rfl rfl,
    mkRecord_integer_fieldValue "block_count"
      ⟨"block_count", "Block Count", .integer, 6, true, none, none⟩ hmk rfl rfl rfl,
    mkRecord_integer_fieldValue "entry_and_addenda_count"
      ⟨"entry_and_addenda_count", "Entry and Addenda Count", .integer, 8, true, none, none⟩
      hmk rfl rfl rfl,
    mkRecord_integer_fieldValue "entry_hash"
      ⟨"entry_hash", "Entry Hash", .integer, 10, true, none, none⟩ hmk rfl rfl rfl,
    mkRecord_integer_fieldValue "total_debit_amount"
      ⟨"total_debit_amount", "Total Debit Amount", .integer, 12, true, none, none⟩
      hmk rfl rfl rfl,
    mkRecord_integer_fieldValue "total_credit_amount"
      ⟨"total_credit_amount", "Total Credit Amount", .integer, 12, true, none, none⟩
      hmk rfl rfl rfl⟩

theorem digitVal_le_of_isPyDigit {c : Char} (h : isPyDigit c = true) :
    digitVal c ≤ 9 := by
  unfold isPyDigit at h
  simp only [Bool.and_eq_true, decide_eq_true_eq] at h
  obtain ⟨h1, h2⟩ := h
  rw [Char.le_def] at h2
  have h2' : c.toNat ≤ 57 := h2
  unfold digitVal
  omega

theorem parseDigits_foldl_lt :
    ∀ (s : Str), (∀ c ∈ s, isPyDigit c = true) →
    ∀ acc : Nat,
      List.foldl (fun a c => a * 10 + digitVal c) acc s < (acc + 1) * 10 ^ s.length := by
  intro s
  induction s with
  | nil =>
    intro _ acc
    simp only [List.foldl_nil, List.length_nil, pow_zero, Nat.mul_one]
    exact Nat.lt_succ_self acc
  | cons c rest ih =>
    intro hd acc
    rw [List.foldl_cons, List.length_cons]
    have hdc : digitVal c ≤ 9 :=
      digitVal_le_of_isPyDigit (hd c (List.mem_cons_self c rest))
    have hrest : ∀ x ∈ rest, isPyDigit x = true :=
      fun x hx => hd x (List.mem_cons_of_mem c hx)
    calc List.foldl (fun a c => a * 10 + digitVal c) (acc * 10 + digitVal c) rest
        < (acc * 10 + digitVal c + 1) * 10 ^ rest.length := ih hrest _
      _ ≤ ((acc + 1) * 10) * 10 ^ rest.length :=
          Nat.mul_le_mul_right _ (by omega)
      _ = (acc + 1) * 10 ^ (rest.length + 1) := by
          rw [pow_succ]
          ring

theorem parseDigits_lt {s : Str} (hd : ∀ c ∈ s, isPyDigit c = true) :
    parseDigits s < 10 ^ s.length := by
  have := parseDigits_foldl_lt s hd 0
  simpa [parseDigits] using this

theorem parseDigits_append (a b : Str) :
    parseDigits (a ++ b) = parseDigits a * 10 ^ b.length + parseDigits b := by
  induction b using List.reverseRecOn with
  | nil => simp [parseDigits]
  | append_singleton bs c ih =>
    rw [← List.append_assoc, parseDigits_concat, parseDigits_concat, ih]
    rw [List.length_append, List.length_singleton, pow_succ]
    ring

theorem parseDigits_drop {s : Str} (hd : ∀ c ∈ s, isPyDigit c = true) (k : Nat) :
    parseDigits (s.drop k) = parseDigits s % 10 ^ (s.length - k) := by
  by_cases hk : s.length ≤ k
  · rw [List.drop_eq_nil_of_le hk, Nat.sub_eq_zero_of_le hk, pow_zero, Nat.mod_one]
    rfl
  · push_neg at hk
    conv =>
      rhs
      rw [← List.take_append_drop k s]
    rw [parseDigits_append, List.length_append, List.length_take, List.length_drop]
    have hmin : min k s.length = k := Nat.min_eq_left (Nat.le_of_lt hk)
    rw [hmin]
    have heq : k + (s.length - k) - k = s.length - k := by omega
    rw [heq, Nat.mul_comm (parseDigits (List.take k s)) (10 ^ (s.length - k)),
      Nat.mul_add_mod]
    rw [Nat.mod_eq_of_lt]
    have hdd : ∀ c ∈ s.drop k, isPyDigit c = true :=
      fun c hc => hd c (List.mem_of_mem_drop hc)
    have := parseDigits_lt hdd
    rwa [List.length_drop] at this

theorem lt_natToStr_length {n k : Nat} (h : 10 ^ k ≤ n) :
    k < (natToStr n).length := by
  have h1 : n < 10 ^ (natToStr n).length := by
    have := parseDigits_lt (natToStr_digits n)
    rwa [parseDigits_natToStr] at this
  by_contra hc
  push_neg at hc
  have : (10 : Nat) ^ (natToStr n).length ≤ 10 ^ k :=
    Nat.pow_le_pow_right (by omega) hc
  omega

theorem pyIntNat_applyFixedLength_integer_mod {n k : Nat} (hk : 0 < k)
    (hlen : k ≤ (natToStr n).length) :
    pyIntNat (applyFixedLength .integer (natToStr n) k) = n % 10 ^ k := by
  rw [applyFixedLength_right_trunc .integer rfl hlen hk]
  unfold pyIntNat
  have hdig : ∀ c ∈ (natToStr n).drop ((natToStr n).length - k), isPyDigit c = true :=
    fun c hc => natToStr_digits n c (List.mem_of_mem_drop hc)
  rw [stripWs_of_digits hdig]
  rw [parseDigits_drop (natToStr_digits n), parseDigits_natToStr]
  have heq : (natToStr n).length - ((natToStr n).length - k) = k := by omega
  rw [heq]

/-- C9: in a computed batch control record and in a computed file control
record, an entry-hash accumulation exceeding ten decimal digits is rendered
as a ten-character field holding exactly the low-order ten digits of the
sum (the right-aligned integer field truncates on the left). -/
theorem C9_entry_hash_low_digits (env : Env)
    (b : ACHBatch) (c : RecordType)
    (hb : ACHBatch.computeBatchControlRecord env b = .ok c)
    (hbig : 10 ^ 10 ≤ ACHBatch.computeEntryHash b)
    (f : ACHFileContents) (r : RecordType) (bs : List ACHBatch)
    (hf : ACHFileContents.computeFileControlRecord env f = .ok (r, bs))
    (hbigf : 10 ^ 10 ≤ fileBatchFieldSum env "entry_hash" f) :
    ((getFieldValue c "entry_hash").length = 10 ∧
      pyIntNat (getFieldValue c "entry_hash") =
        ACHBatch.computeEntryHash b % 10 ^ 10) ∧
    ((getFieldValue r "entry_hash").length = 10 ∧
      pyIntNat (getFieldValue r "entry_hash") =
        fileBatchFieldSum env "entry_hash" f % 10 ^ 10) := by
  obtain ⟨-, hbh, -, -⟩ := computeBatchControl_fieldValues hb
  obtain ⟨-, -, -, hfh, -, -⟩ := computeFileControl_fieldValues hf
  have hlb : 10 ≤ (natToStr (ACHBatch.computeEntryHash b)).length :=
    Nat.le_of_lt (lt_natToStr_length hbig)
  have hlf : 10 ≤ (natToStr (fileBatchFieldSum env "entry_hash" f)).length :=
    Nat.le_of_lt (lt_natToStr_length hbigf)
  refine ⟨⟨?_, ?_⟩, ?_, ?_⟩
  · rw [hbh]
    exact applyFixedLength_length .integer _ (by omega)
  · rw [hbh]
    exact pyIntNat_applyFixedLength_integer_mod (by omega) hlb
  · rw [hfh]
    exact applyFixedLength_length .integer _ (by omega)
  · rw [hfh]
    exact pyIntNat_applyFixedLength_integer_mod (by omega) hlf

/-- Witness for C9: the 101-transaction batch (hash sum 10099999899) and the
two-batch file (field sum 10199999898). -/
theorem C9_witness :
    ((getFieldValue bigBatchComputed "entry_hash").length = 10 ∧
      pyIntNat (getFieldValue bigBatchComputed "entry_hash") =
        ACHBatch.computeEntryHash bigBatch % 10 ^ 10) ∧
    ((getFieldValue hashComputedControl "entry_hash").length = 10 ∧
      pyIntNat (getFieldValue hashComputedControl "entry_hash") =
        fileBatchFieldSum env0 "entry_hash" hashFile % 10 ^ 10) :=
  C9_entry_hash_low_digits env0 bigBatch bigBatchComputed (by rfl) (by decide)
    hashFile hashComputedControl hashComputedBatches (by rfl) (by decide)

theorem sum_over_transactions (f : ACHFileContents) (g : ACHTransactionEntry → Nat) :
    ((ACHFileContents.getAllTransactions f).map g).sum =
      (f.batches.map (fun b => (b.transactions.map g).sum)).sum := by
  unfold ACHFileContents.getAllTransactions
  rw [List.map_flatten, List.sum_flatten, List.map_map, List.map_map]
  rfl

theorem fileBatchFieldSum_eq_aggregates {env : Env} {f : ACHFileContents}
    (hall : ∀ b ∈ f.batches, ∃ c, ACHBatch.batchControlValue env b = .ok c)
    (hfresh : ∀ b ∈ f.batches, b.batchControlRecordCache = none)
    (hfit : ∀ b ∈ f.batches,
      ACHBatch.computeEntryAndAddendaCount b < 10 ^ 6 ∧
      ACHBatch.computeEntryHash b < 10 ^ 10 ∧
      ACHBatch.computeDebitTotal b < 10 ^ 12 ∧
      ACHBatch.computeCreditTotal b < 10 ^ 12) :
    fileBatchFieldSum env "entry_and_addenda_count" f =
      (f.batches.map ACHBatch.computeEntryAndAddendaCount).sum ∧
    fileBatchFieldSum env "entry_hash" f =
      (f.batches.map ACHBatch.computeEntryHash).sum ∧
    fileBatchFieldSum env "total_debit_amount" f =
      (f.batches.map ACHBatch.computeDebitTotal).sum ∧
    fileBatchFieldSum env "total_credit_amount" f =
      (f.batches.map ACHBatch.computeCreditTotal).sum := by
  have key : ∀ b ∈ f.batches,
      pyIntNat (getFieldValue (batchControlValueD env b) "entry_and_addenda_count") =
        ACHBatch.computeEntryAndAddendaCount b ∧
      pyIntNat (getFieldValue (batchControlValueD env b) "entry_hash") =
        ACHBatch.computeEntryHash b ∧
      pyIntNat (getFieldValue (batchControlValueD env b) "total_debit_amount") =
        ACHBatch.computeDebitTotal b ∧
      pyIntNat (getFieldValue (batchControlValueD env b) "total_credit_amount") =
        ACHBatch.computeCreditTotal b := by
    intro b hb
    obtain ⟨c, hc⟩ := hall b hb
    have hcomp : ACHBatch.computeBatchControlRecord env b = .ok c := by
      rw [← batchControlValue_of_fresh (hfresh b hb)]
      exact hc
    obtain ⟨h1, h2, h3, h4⟩ := computeBatchControl_fieldValues hcomp
    have hd : batchControlValueD env b = c := by
      unfold batchControlValueD
      rw [hc]
    obtain ⟨f1, f2, f3, f4⟩ := hfit b hb
    rw [hd, h1, h2, h3, h4]
    exact ⟨pyIntNat_applyFixedLength_integer (by omega) f1,
      pyIntNat_applyFixedLength_integer (by omega) f2,
      pyIntNat_applyFixedLength_integer (by omega) f3,
      pyIntNat_applyFixedLength_integer (by omega) f4⟩
  refine ⟨?_, ?_, ?_, ?_⟩
  · unfold fileBatchFieldSum
    congr 1
    exact List.map_congr_left (fun b hb => (key b hb).1)
  · unfold fileBatchFieldSum
    congr 1
    exact List.map_congr_left (fun b hb => (key b hb).2.1)
  · unfold fileBatchFieldSum
    congr 1
    exact List.map_congr_left (fun b hb => (key b hb).2.2.1)
  · unfold fileBatchFieldSum
    congr 1
    exact List.map_congr_left (fun b hb => (key b hb).2.2.2)

/-- Counterexample to C2 as stated: in `bigFile` the transaction-level
entry-hash sum is 10099999899, but the batch control field already truncated
it to its last eight nonzero-bearing characters, so the computed file control
record carries 99999899. -/
theorem C2_counterexample :
    ACHFileContents.computeFileControlRecord env0 bigFile =
      .ok (bigComputedControl, bigComputedBatches) ∧
    ((ACHFileContents.getAllTransactions bigFile).map
        ACHTransactionEntry.getEntryHashInt).sum = 10099999899 ∧
    pyIntNat (getFieldValue bigComputedControl "entry_hash") = 99999899 ∧
    pyIntNat (getFieldValue bigComputedControl "entry_hash") ≠
      ((ACHFileContents.getAllTransactions bigFile).map
        ACHTransactionEntry.getEntryHashInt).sum := by
  refine ⟨rfl, by decide, rfl, by decide⟩

/-- C2 (amended): for a file whose batch control records are computed (no
batch control is supplied verbatim), when every per-batch aggregate fits its
batch-control field width and every file-level total fits its file-control
field width, the computed file control record's integer field values are the
claimed transaction-level sums: `batch_count` is the number of batches,
`entry_and_addenda_count` the sum of 1 + addenda count, `entry_hash` the sum
of the first-8-digit routing contributions, and the debit/credit totals the
sums of amounts classified by transaction code. Without the fit bounds the
fields hold only the low-order digits of the sums. -/
theorem C2_aggregation (env : Env) (f : ACHFileContents)
    (r : RecordType) (bs : List ACHBatch)
    (hfresh : ∀ b ∈ f.batches, b.batchControlRecordCache = none)
    (h : ACHFileContents.computeFileControlRecord env f = .ok (r, bs))
    (hfit : ∀ b ∈ f.batches,
      ACHBatch.computeEntryAndAddendaCount b < 10 ^ 6 ∧
      ACHBatch.computeEntryHash b < 10 ^ 10 ∧
      ACHBatch.computeDebitTotal b < 10 ^ 12 ∧
      ACHBatch.computeCreditTotal b < 10 ^ 12)
    (hcount : f.batches.length < 10 ^ 6)
    (hEA : ((ACHFileContents.getAllTransactions f).map
      ACHTransactionEntry.getEntryAndAddendaCount).sum < 10 ^ 8)
    (hH : ((ACHFileContents.getAllTransactions f).map
      ACHTransactionEntry.getEntryHashInt).sum < 10 ^ 10)
    (hD : ((ACHFileContents.getAllTransactions f).map
      ACHTransactionEntry.getDebitAmount).sum < 10 ^ 12)
    (hC : ((ACHFileContents.getAllTransactions f).map
      ACHTransactionEntry.getCreditAmount).sum < 10 ^ 12) :
    pyIntNat (getFieldValue r "batch_count") = f.batches.length ∧
    pyIntNat (getFieldValue r "entry_and_addenda_count") =
      ((ACHFileContents.getAllTransactions f).map
        ACHTransactionEntry.getEntryAndAddendaCount).sum ∧
    pyIntNat (getFieldValue r "entry_hash") =
      ((ACHFileContents.getAllTransactions f).map
        ACHTransactionEntry.getEntryHashInt).sum ∧
    pyIntNat (getFieldValue r "total_debit_amount") =
      ((ACHFileContents.getAllTransactions f).map
        ACHTransactionEntry.getDebitAmount).sum ∧
    pyIntNat (getFieldValue r "total_credit_amount") =
      ((ACHFileContents.getAllTransactions f).map
        ACHTransactionEntry.getCreditAmount).sum := by
  obtain ⟨hall, -⟩ := computeFileControlRecord_ok h
  obtain ⟨hbc, -, hea, hh, hd, hcr⟩ := computeFileControl_fieldValues h
  obtain ⟨sEA, sH, sD, sC⟩ := fileBatchFieldSum_eq_aggregates hall hfresh hfit
  have eEA : (f.batches.map ACHBatch.computeEntryAndAddendaCount).sum =
      ((ACHFileContents.getAllTransactions f).map
        ACHTransactionEntry.getEntryAndAddendaCount).sum := by
    rw [sum_over_transactions f ACHTransactionEntry.getEntryAndAddendaCount]
    rfl
  have eH : (f.batches.map ACHBatch.computeEntryHash).sum =
      ((ACHFileContents.getAllTransactions f).map
        ACHTransactionEntry.getEntryHashInt).sum := by
    rw [sum_over_transactions f ACHTransactionEntry.getEntryHashInt]
    rfl
  have eD : (f.batches.map ACHBatch.computeDebitTotal).sum =
      ((ACHFileContents.getAllTransactions f).map
        ACHTransactionEntry.getDebitAmount).sum := by
    rw [sum_over_transactions f ACHTransactionEntry.getDebitAmount]
    rfl
  have eC : (f.batches.map ACHBatch.computeCreditTotal).sum =
      ((ACHFileContents.getAllTransactions f).map
        ACHTransactionEntry.getCreditAmount).sum := by
    rw [sum_over_transactions f ACHTransactionEntry.getCreditAmount]
    rfl
  have tEA := sEA.trans eEA
  have tH := sH.trans eH
  have tD := sD.trans eD
  have tC := sC.trans eC
  refine ⟨?_, ?_, ?_, ?_, ?_⟩
  · rw [hbc]
    exact pyIntNat_applyFixedLength_integer (by omega) hcount
  · rw [hea, tEA]
    exact pyIntNat_applyFixedLength_integer (by omega) hEA
  · rw [hh, tH]
    exact pyIntNat_applyFixedLength_integer (by omega) hH
  · rw [hd, tD]
    exact pyIntNat_applyFixedLength_integer (by omega) hD
  · rw [hcr, tC]
    exact pyIntNat_applyFixedLength_integer (by omega) hC

/-- Witness for C2 at `smallFile`. -/
theorem C2_witness :
    pyIntNat (getFieldValue smallComputedControl "batch_count") =
      smallFile.batches.length ∧
    pyIntNat (getFieldValue smallComputedControl "entry_and_addenda_count") =
      ((ACHFileContents.getAllTransactions smallFile).map
        ACHTransactionEntry.getEntryAndAddendaCount).sum ∧
    pyIntNat (getFieldValue smallComputedControl "entry_hash") =
      ((ACHFileContents.getAllTransactions smallFile).map
        ACHTransactionEntry.getEntryHashInt).sum ∧
    pyIntNat (getFieldValue smallComputedControl "total_debit_amount") =
      ((ACHFileContents.getAllTransactions smallFile).map
        ACHTransactionEntry.getDebitAmount).sum ∧
    pyIntNat (getFieldValue smallComputedControl "total_credit_amount") =
      ((ACHFileContents.getAllTransactions smallFile).map
        ACHTransactionEntry.getCreditAmount).sum :=
  C2_aggregation env0 smallFile smallComputedControl smallComputedBatches
    (by intro b hb; simp only [smallFile, List.mem_singleton] at hb; subst hb; rfl)
    (by rfl)
    (by intro b hb; simp only [smallFile, List.mem_singleton] at hb; subst hb;
        exact ⟨by decide, by decide, by decide, by decide⟩)
    (by decide) (by decide) (by decide) (by decide) (by decide)

/-- Counterexample to C6 as stated: `smallFile` renders to 5 physical lines;
rounded up to the next multiple of the blocking factor that would be 10, but
the computed `block_count` field holds ceil(5 / 10) = 1, the number of
blocks. -/
theorem C6_counterexample :
    ACHFileContents.computeFileControlRecord env0 smallFile =
      .ok (smallComputedControl, smallComputedBatches) ∧
    ACHFileContents.computeLineCount
      (fileBatchFieldSum env0 "entry_and_addenda_count" smallFile)
      smallFile.batches.length = 5 ∧
    roundUpToMultiple 10 5 = 10 ∧
    pyIntNat (getFieldValue smallComputedControl "block_count") = 1 ∧
    pyIntNat (getFieldValue smallComputedControl "block_count") ≠
      roundUpToMultiple 10 (ACHFileContents.computeLineCount
        (fileBatchFieldSum env0 "entry_and_addenda_count" smallFile)
        smallFile.batches.length) := by
  refine ⟨rfl, by decide, by decide, rfl, by decide⟩

/-- C6 (amended): the computed file control record's `block_count` is the
number of blocks, ceil(line count / blocking factor), where the line count is
the entry/addenda total plus 2 per batch plus 2 — not the line count rounded
up to a multiple of the blocking factor; multiplying the stored count by the
factor yields that rounded-up line count. -/
theorem C6_block_count (env : Env) (f : ACHFileContents) (r : RecordType)
    (bs : List ACHBatch)
    (h : ACHFileContents.computeFileControlRecord env f = .ok (r, bs))
    (hfit : ACHFileContents.computeBlockCount
      (ACHFileContents.computeLineCount
        (fileBatchFieldSum env "entry_and_addenda_count" f)
        f.batches.length) < 10 ^ 6) :
    pyIntNat (getFieldValue r "block_count") =
      ACHFileContents.computeBlockCount
        (ACHFileContents.computeLineCount
          (fileBatchFieldSum env "entry_and_addenda_count" f)
          f.batches.length) ∧
    ∀ l : Nat,
      ACHFileContents.computeBlockCount l * FILE_HEADER_BLOCKING_FACTOR =
        roundUpToMultiple FILE_HEADER_BLOCKING_FACTOR l := by
  obtain ⟨-, hbl, -, -, -, -⟩ := computeFileControl_fieldValues h
  refine ⟨?_, ?_⟩
  · rw [hbl]
    exact pyIntNat_applyFixedLength_integer (by omega) hfit
  · intro l
    unfold ACHFileContents.computeBlockCount roundUpToMultiple
      FILE_HEADER_BLOCKING_FACTOR
    omega

/-- Witness for C6 at `smallFile`. -/
theorem C6_witness :
    pyIntNat (getFieldValue smallComputedControl "block_count") =
      ACHFileContents.computeBlockCount
        (ACHFileContents.computeLineCount
          (fileBatchFieldSum env0 "entry_and_addenda_count" smallFile)
          smallFile.batches.length) ∧
    ∀ l : Nat,
      ACHFileContents.computeBlockCount l * FILE_HEADER_BLOCKING_FACTOR =
        roundUpToMultiple FILE_HEADER_BLOCKING_FACTOR l :=
  C6_block_count env0 smallFile smallComputedControl smallComputedBatches
    (by rfl) (by decide)

theorem readFileControl_cached {env : Env} {f : ACHFileContents} {c : RecordType}
    (hc : f.fileControlRecordCache = some c) (hr : f.recalcFileControl = false) :
    ACHFileContents.readFileControl env f = .ok (c, f) := by
  unfold ACHFileContents.readFileControl
  rw [hc]
  dsimp only
  rw [if_pos (by rw [hr]; decide)]

theorem addTransactionInBatch_cache (f : ACHFileContents) (i : Nat)
    (tx : ACHTransactionEntry) :
    (ACHFileContents.addTransactionInBatch f i tx).fileControlRecordCache =
      f.fileControlRecordCache ∧
    (ACHFileContents.addTransactionInBatch f i tx).recalcFileControl =
      f.recalcFileControl := by
  unfold ACHFileContents.addTransactionInBatch
  cases f.batches[i]? <;> exact ⟨rfl, rfl⟩

/-- Counterexample to C3 as stated: reading `smallFile`'s control record
caches it; adding a transaction inside the contained batch afterwards leaves
the file-level cache valid, so the next read returns the stale record with
`entry_and_addenda_count` 1 even though recomputation would give 2. -/
theorem C3_counterexample :
    ACHFileContents.readFileControl env0 smallFile =
      .ok (smallFileControl, smallFileRead) ∧
    smallFileMutated = ACHFileContents.addTransactionInBatch smallFileRead 0 txW ∧
    ACHFileContents.readFileControl env0 smallFileMutated =
      .ok (smallFileControl, smallFileMutated) ∧
    pyIntNat (getFieldValue smallFileControl "entry_and_addenda_count") = 1 ∧
    ACHFileContents.computeFileControlRecord env0 smallFileMutated =
      .ok (smallMutatedComputed, smallMutatedComputedBatches) ∧
    pyIntNat (getFieldValue smallMutatedComputed "entry_and_addenda_count") = 2 :=
  ⟨rfl, rfl, rfl, rfl, rfl, rfl⟩

/-- C3 (amended): a mutation through the owning object's own interface —
adding or removing a transaction on a batch, replacing a batch's header,
adding or removing a batch on a file — marks that object's cached control
record stale, and the next read recomputes it; but adding a transaction
directly inside a contained batch leaves the file-level cache untouched, so
the next file-control read still returns the stale cached record. -/
theorem C3_cache_invalidation (env : Env) (b : ACHBatch) (c : RecordType)
    (hb : b.batchControlRecordCache = some c)
    (tx : ACHTransactionEntry) (i : Nat) (hr : RecordType)
    (f : ACHFileContents) (cf : RecordType)
    (hf : f.fileControlRecordCache = some cf)
    (hfl : f.recalcFileControl = false)
    (nb : ACHBatch) :
    ((ACHBatch.addTransaction b tx).recalcBatchControl = true ∧
      ACHBatch.batchControlValue env (ACHBatch.addTransaction b tx) =
        ACHBatch.computeBatchControlRecord env (ACHBatch.addTransaction b tx)) ∧
    (∀ tx' b', ACHBatch.removeTransactionByIndex b i = some (tx', b') →
      b'.recalcBatchControl = true ∧
      ACHBatch.batchControlValue env b' =
        ACHBatch.computeBatchControlRecord env b') ∧
    ((ACHBatch.setBatchHeaderRecord b hr).recalcBatchControl = true ∧
      ACHBatch.batchControlValue env (ACHBatch.setBatchHeaderRecord b hr) =
        ACHBatch.computeBatchControlRecord env (ACHBatch.setBatchHeaderRecord b hr)) ∧
    ((ACHFileContents.addBatch f nb).recalcFileControl = true ∧
      ∀ r bs, ACHFileContents.computeFileControlRecord env
          (ACHFileContents.addBatch f nb) = .ok (r, bs) →
        ACHFileContents.readFileControl env (ACHFileContents.addBatch f nb) =
          .ok (r, { ACHFileContents.addBatch f nb with
            batches := bs, fileControlRecordCache := some r })) ∧
    (∀ b' f', ACHFileContents.removeBatchByIndex f i = some (b', f') →
      f'.recalcFileControl = true) ∧
    (ACHFileContents.readFileControl env (ACHFileContents.addTransactionInBatch f i tx) =
      .ok (cf, ACHFileContents.addTransactionInBatch f i tx)) := by
  have hbs : b.batchControlRecordCache.isSome = true := by rw [hb]; rfl
  have hfs : f.fileControlRecordCache.isSome = true := by rw [hf]; rfl
  refine ⟨⟨?_, ?_⟩, ?_, ⟨?_, ?_⟩, ⟨?_, ?_⟩, ?_, ?_⟩
  · show (if b.batchControlRecordCache.isSome then true else b.recalcBatchControl) = true
    rw [hbs]
    rfl
  · refine batchControlValue_of_stale ?_
    show (if b.batchControlRecordCache.isSome then true else b.recalcBatchControl) = true
    rw [hbs]
    rfl
  · intro tx' b' hrm
    unfold ACHBatch.removeTransactionByIndex at hrm
    cases hit : b.transactions[i]? with
    | none => rw [hit] at hrm; cases hrm
    | some tx0 =>
      rw [hit] at hrm
      dsimp only at hrm
      cases hrm
      have hflag : (if b.batchControlRecordCache.isSome then true
          else b.recalcBatchControl) = true := by
        rw [hbs]
        rfl
      exact ⟨hflag, batchControlValue_of_stale hflag⟩
  · show (if b.batchControlRecordCache.isSome then true else b.recalcBatchControl) = true
    rw [hbs]
    rfl
  · refine batchControlValue_of_stale ?_
    show (if b.batchControlRecordCache.isSome then true else b.recalcBatchControl) = true
    rw [hbs]
    rfl
  · show (if f.fileControlRecordCache.isSome then true else f.recalcFileControl) = true
    rw [hfs]
    rfl
  · intro r bs hcomp
    unfold ACHFileContents.readFileControl
    have hc2 : (ACHFileContents.addBatch f nb).fileControlRecordCache = some cf := hf
    rw [hc2]
    dsimp only
    have hfl2 : (ACHFileContents.addBatch f nb).recalcFileControl = true := by
      show (if f.fileControlRecordCache.isSome then true else f.recalcFileControl) = true
      rw [hfs]
      rfl
    rw [if_neg (by rw [hfl2]; decide)]
    rw [hcomp]
  · intro b' f' hrm
    unfold ACHFileContents.removeBatchByIndex at hrm
    cases hit : f.batches[i]? with
    | none => rw [hit] at hrm; cases hrm
    | some b0 =>
      rw [hit] at hrm
      dsimp only at hrm
      cases hrm
      show (if f.fileControlRecordCache.isSome then true else f.recalcFileControl) = true
      rw [hfs]
      rfl
  · obtain ⟨h1, h2⟩ := addTransactionInBatch_cache f i tx
    exact readFileControl_cached (h1.trans hf) (h2.trans hfl)

/-- Witness for C3 at `smallBatchRead` / `smallFileRead`. -/
theorem C3_witness :
    ((ACHBatch.addTransaction smallBatchRead txW).recalcBatchControl = true ∧
      ACHBatch.batchControlValue env0 (ACHBatch.addTransaction smallBatchRead txW) =
        ACHBatch.computeBatchControlRecord env0
          (ACHBatch.addTransaction smallBatchRead txW)) ∧
    (∀ tx' b', ACHBatch.removeTransactionByIndex smallBatchRead 0 = some (tx', b') →
      b'.recalcBatchControl = true ∧
      ACHBatch.batchControlValue env0 b' =
        ACHBatch.computeBatchControlRecord env0 b') ∧
    ((ACHBatch.setBatchHeaderRecord smallBatchRead batchHeaderW).recalcBatchControl = true ∧
      ACHBatch.batchControlValue env0
          (ACHBatch.setBatchHeaderRecord smallBatchRead batchHeaderW) =
        ACHBatch.computeBatchControlRecord env0
          (ACHBatch.setBatchHeaderRecord smallBatchRead batchHeaderW)) ∧
    ((ACHFileContents.addBatch smallFileRead smallBatch).recalcFileControl = true ∧
      ∀ r bs, ACHFileContents.computeFileControlRecord env0
          (ACHFileContents.addBatch smallFileRead smallBatch) = .ok (r, bs) →
        ACHFileContents.readFileControl env0
            (ACHFileContents.addBatch smallFileRead smallBatch) =
          .ok (r, { ACHFileContents.addBatch smallFileRead smallBatch with
            batches := bs, fileControlRecordCache := some r })) ∧
    (∀ b' f', ACHFileContents.removeBatchByIndex smallFileRead 0 = some (b', f') →
      f'.recalcFileControl = true) ∧
    (ACHFileContents.readFileControl env0
        (ACHFileContents.addTransactionInBatch smallFileRead 0 txW) =
      .ok (smallFileControl, ACHFileContents.addTransactionInBatch smallFileRead 0 txW)) :=
  C3_cache_invalidation env0 smallBatchRead smallBatchControl (by rfl)
    txW 0 batchHeaderW smallFileRead smallFileControl (by rfl) (by rfl) smallBatch

/-- Witness for C7 at code 22. -/
theorem C7_witness :
    (isCreditCode 22 = true ↔ (22 % 10 = 2 ∨ 22 % 10 = 3)) ∧
    (isDebitCode 22 = true ↔ (22 % 10 = 7 ∨ 22 % 10 = 8)) ∧
    (isCreditCode 22 = true ↔ isDebitCode 22 = false) ∧
    (isPrenoteCode 22 = true ↔ (22 % 10 = 3 ∨ 22 % 10 = 8)) ∧
    (isCheckingCode 22 = true ↔ 22 / 10 = 2) ∧
    (isSavingsCode 22 = true ↔ 22 / 10 = 3) :=
  C7_transaction_code_classification 22 (by decide)

end AchFile
